import Mathlib

/-!
Verification development for the ProfileAuditor claim-extraction and
claim-verification pipeline (Python backend under `backend/app`).

The Python sources are shallowly embedded: pure functions become Lean
functions over `String` / `List Char` / `ℚ`, Python dictionaries become
structures, fallible external calls (HTTP fetches) become `Except` values
threaded in as parameters, and Python `list(set(...))` (whose iteration
order is unspecified) is modelled by `Multiset` / `Finset`.

A note on text encoding: the repository file `services/resume_parser.py`
is committed in a double-encoded (mojibake) form, so the program's
canonical "em-dash" is literally the three-character sequence
`'â' '€' '”'` (U+00E2 U+20AC U+201D), the "en-dash" is U+00E2 U+20AC
U+201C, and similarly for bullets.  The embedding reproduces those exact
character sequences; concrete test inputs below use the program's own
canonical dash sequences.
-/

namespace ProfileAuditor

/-! ### Python-style string primitives -/

/-- Python `\s` on the ASCII range (`str.split()` / regex whitespace). -/
def pyIsSpace (c : Char) : Bool :=
  c = ' ' || c = '\t' || c = '\n' || c = '\r' || c = '\x0b' || c = '\x0c'

/-- ASCII letter. -/
def asciiAlpha (c : Char) : Bool :=
  ('a' ≤ c && c ≤ 'z') || ('A' ≤ c && c ≤ 'Z')

/-- ASCII digit. -/
def asciiDigit (c : Char) : Bool :=
  '0' ≤ c && c ≤ '9'

/-- ASCII uppercase letter (Python `str.isupper` on the characters we meet). -/
def asciiUpper (c : Char) : Bool :=
  'A' ≤ c && c ≤ 'Z'

/-- Python regex `\w` (word character).  ASCII alphanumerics and `_`; of the
non-ASCII characters that occur in the embedded sources, the Latin letters
are word characters, the punctuation/symbol ones are not. -/
def pyIsWord (c : Char) : Bool :=
  asciiAlpha c || asciiDigit c || c = '_' ||
    c = 'â' || c = 'Â' || c = 'ª' || c = 'ˆ'

/-- Python `str.lower` (ASCII; the non-ASCII characters occurring in our
inputs are unchanged by lowering). -/
def pyLowerChar (c : Char) : Char := c.toLower

def pyUpperChar (c : Char) : Char := c.toUpper

def pyLower (s : String) : String := String.mk (s.toList.map pyLowerChar)

def pyUpper (s : String) : String := String.mk (s.toList.map pyUpperChar)

/-- `needle` occurs as a contiguous sublist of `hay` (Python `needle in hay`). -/
def listContainsSub (needle : List Char) : List Char → Bool
  | [] => needle.isEmpty
  | c :: t => needle.isPrefixOf (c :: t) || listContainsSub needle t

/-- Python `needle in hay` on strings. -/
def strContainsSub (hay needle : String) : Bool :=
  listContainsSub needle.toList hay.toList

/-- Python `str.strip()` on a character list. -/
def pyStripList (cs : List Char) : List Char :=
  ((cs.dropWhile pyIsSpace).reverse.dropWhile pyIsSpace).reverse

/-- Python `str.strip()`. -/
def pyStrip (s : String) : String := String.mk (pyStripList s.toList)

/-- Python `str.strip(chars)` for a character predicate. -/
def pyStripPred (p : Char → Bool) (s : String) : String :=
  String.mk (((s.toList.dropWhile p).reverse.dropWhile p).reverse)

/-- Python `str.split('\n')` (keeps empty pieces). -/
def pySplitNl (s : String) : List String :=
  (go s.toList []).map fun l => String.mk l.reverse
where
  go : List Char → List Char → List (List Char)
    | [], acc => [acc]
    | c :: t, acc => if c = '\n' then acc :: go t [] else go t (c :: acc)

/-- Python `str.split()` (split on whitespace runs, dropping empties). -/
def pySplitWs (s : String) : List String :=
  (go s.toList [] []).reverse.map fun l => String.mk l.reverse
where
  go : List Char → List Char → List (List Char) → List (List Char)
    | [], cur, acc => if cur.isEmpty then acc else cur :: acc
    | c :: t, cur, acc =>
        if pyIsSpace c then
          if cur.isEmpty then go t [] acc else go t [] (cur :: acc)
        else go t (c :: cur) acc

/-- Python `hay.find(needle)`: index of the first occurrence, `none` when
absent (the source only distinguishes `> 0` / `≤ 0`, and `-1` collapses
with `0` there, so `Option ℕ` is a faithful carrier). -/
def pyFindSub (hay needle : List Char) : Option ℕ :=
  go hay 0
where
  go : List Char → ℕ → Option ℕ
    | [], i => if needle.isEmpty then some i else none
    | c :: t, i => if needle.isPrefixOf (c :: t) then some i else go t (i + 1)

/-- Python slice `text[max(0, pos - 200):pos]` used by the achievements
context check. -/
def pyWindowBefore (cs : List Char) (pos : ℕ) : List Char :=
  (cs.take pos).drop (pos - 200)

theorem length_dropWhile_le (p : Char → Bool) (l : List Char) :
    (l.dropWhile p).length ≤ l.length := by
  induction l with
  | nil => simp
  | cons c t ih =>
    by_cases h : p c
    · simp only [List.dropWhile_cons, h, if_true]
      exact Nat.le_succ_of_le ih
    · simp [List.dropWhile_cons, h]

/-- Python `re.sub(r'X+', rep, ...)` for a character-class `X`: replace
every maximal run of class characters by the single character `rep`.
The fuel argument (instantiated with the list length, which bounds the
number of steps) makes the recursion structural. -/
def collapseRunsGo (p : Char → Bool) (rep : Char) : ℕ → List Char → List Char
  | 0, cs => cs
  | _ + 1, [] => []
  | n + 1, c :: t =>
    if p c then rep :: collapseRunsGo p rep n (t.dropWhile p)
    else c :: collapseRunsGo p rep n t

def collapseRuns (p : Char → Bool) (rep : Char) (cs : List Char) : List Char :=
  collapseRunsGo p rep cs.length cs

/-- Case-insensitive literal prefix match; returns the remainder. -/
def matchLitCI : List Char → List Char → Option (List Char)
  | [], cs => some cs
  | _ :: _, [] => none
  | n :: ns, c :: cs =>
    if pyLowerChar n = pyLowerChar c then matchLitCI ns cs else none

/-- Case-insensitive whole-word search: Python
`re.search(r'\b' + re.escape(kw) + r'\b', text, re.IGNORECASE)`.
`prev` is the character just before the current position. -/
def kwSearchCIGo (kw : List Char) : Option Char → List Char → Bool
  | _, [] => false
  | prev, c :: t =>
    (decide ((match prev with | none => false | some p => pyIsWord p) ≠
        pyIsWord c) &&
      (match matchLitCI kw (c :: t) with
        | none => false
        | some rem =>
          decide (pyIsWord (kw.getLastD 'x') ≠
            (match rem.head? with | none => false | some n => pyIsWord n)))) ||
    kwSearchCIGo kw (some c) t

/-- Whole-word case-insensitive keyword search over a string. -/
def kwSearchCI (kw text : String) : Bool :=
  kwSearchCIGo kw.toList none text.toList

/-! ### ScoringEngine (`services/scoring_service.py`)

Scores are rationals; Python floats never overflow or lose precision on
the magnitudes involved, so `ℚ` is a faithful carrier.  The optional
Gemini call in `calculate_reality_score` is an external LLM service that
is out of the embedded core (the spec excludes it); the embedding models
the deterministic rule-based fallback path, which the source computes as
`rule_based_final` and returns whenever the AI call is unavailable. -/

/-- A GitHub snapshot dictionary as produced by `verify_github_claims`.
The display-only `proof` mapping (whose strings are built from
nondeterministically-ordered Python sets) is not modelled; no claim
inspects it. -/
structure GithubResults where
  verified_skills : List String
  verified_projects : List String
  repositories : List String
  languages : List String
  contributions : ℚ
  error : Option String
deriving Repr, DecidableEq

/-- A Twitter snapshot dictionary as produced by `verify_twitter_claims`. -/
structure TwitterResults where
  verified_skills : List String
  verified_projects : List String
  tweets : List String
  error : Option String
deriving Repr, DecidableEq

/-- The LinkedIn profile dictionary (only the fields the scoring and
matching code reads). -/
structure LinkedinProfile where
  name : Option String
  headline : Option String
  skills : List String
  experience : List (String × String × String)  -- title, company, description
  projects : List (String × String)             -- name, description
  education : List (String × String × String)   -- degree, school, description
deriving Repr, DecidableEq

/-- A LinkedIn snapshot dictionary as produced by `verify_linkedin_claims`. -/
structure LinkedinResults where
  verified_skills : List String
  verified_projects : List String
  profile : Option LinkedinProfile
  error : Option String
deriving Repr, DecidableEq

/-- `calculate_github_score`.  `none` is the empty dictionary `{}` the
pipeline passes when no GitHub username was given (`not github_results`);
a snapshot whose `error` field is set is the `"error" in github_results`
case. -/
def calculate_github_score : Option GithubResults → ℚ
  | none => 0
  | some r =>
    if r.error.isSome then 0
    else
      min 25 (5 * (r.repositories.length : ℚ)) +
      min 25 (5 * (r.languages.length : ℚ)) +
      min 20 (r.contributions / 25) +
      min 30 (3 * ((r.verified_skills.length : ℚ) + (r.verified_projects.length : ℚ)))

/-- `calculate_twitter_score`. -/
def calculate_twitter_score : Option TwitterResults → ℚ
  | none => 0
  | some r =>
    if r.error.isSome then 0
    else
      min 40 (8 * (r.tweets.length : ℚ)) +
      min 60 (6 * ((r.verified_skills.length : ℚ) + (r.verified_projects.length : ℚ)))

/-- Python truthiness of an optional string (`None` and `""` are falsy). -/
def pyTruthyStr : Option String → Bool
  | none => false
  | some s => !(s = "")

/-- `calculate_linkedin_score` (the code after the first `return` in the
source function is unreachable and is not modelled). -/
def calculate_linkedin_score : Option LinkedinResults → ℚ
  | none => 0
  | some r =>
    if r.error.isSome then 0
    else
      let profile_name_pts : ℚ :=
        match r.profile with
        | none => 0
        | some p => (if pyTruthyStr p.name then 10 else 0) +
            (if pyTruthyStr p.headline then 10 else 0) +
            (if !p.skills.isEmpty then 20 else 0)
      profile_name_pts +
      min 60 (6 * ((r.verified_skills.length : ℚ) + (r.verified_projects.length : ℚ)))

/-- `calculate_skills_score`. -/
def calculate_skills_score (verified_skills unverified_skills : List String) : ℚ :=
  let total := verified_skills.length + unverified_skills.length
  if total = 0 then 0
  else ((verified_skills.length : ℚ) / (total : ℚ)) * 100

/-- `calculate_projects_score`. -/
def calculate_projects_score (verified_projects unverified_projects : List String) : ℚ :=
  let total := verified_projects.length + unverified_projects.length
  if total = 0 then 0
  else ((verified_projects.length : ℚ) / (total : ℚ)) * 100

/-- The five sub-scores returned as the `breakdown` dictionary. -/
structure ScoreBreakdown where
  github_score : ℚ
  twitter_score : ℚ
  linkedin_score : ℚ
  skills_score : ℚ
  projects_score : ℚ
deriving Repr, DecidableEq

/-- `calculate_reality_score`: the deterministic rule-based path (the
Gemini call, an external LLM lookup outside the embedded core, returns
`None` whenever unavailable and the source then falls back to
`rule_based_final`).  Returns `(final_score, breakdown)`. -/
def calculate_reality_score
    (github_results : Option GithubResults)
    (twitter_results : Option TwitterResults)
    (linkedin_results : Option LinkedinResults)
    (verified_skills unverified_skills : List String)
    (verified_projects unverified_projects : List String) : ℚ × ScoreBreakdown :=
  let github_score := calculate_github_score github_results
  let twitter_score := calculate_twitter_score twitter_results
  let linkedin_score := calculate_linkedin_score linkedin_results
  let skills_score := calculate_skills_score verified_skills unverified_skills
  let projects_score := calculate_projects_score verified_projects unverified_projects
  let source_score := github_score * (1/2) + twitter_score * (3/10) + linkedin_score * (1/5)
  let content_score := skills_score * (3/5) + projects_score * (2/5)
  let rule_based_final := (source_score + content_score) / 2
  let rule_based_final := max 0 (min 100 rule_based_final)
  (rule_based_final,
   ⟨github_score, twitter_score, linkedin_score, skills_score, projects_score⟩)

/-! ### Verification categorization (`api/endpoints/verification.py`,
`process_verification`) -/

/-- The categorization loop of `process_verification`: each claimed item
is appended to the verified bucket when any of the three sources lists
it, otherwise to the unverified bucket. -/
def partitionClaims (claims gh tw li : List String) : List String × List String :=
  match claims with
  | [] => ([], [])
  | c :: rest =>
    let (v, u) := partitionClaims rest gh tw li
    if c ∈ gh ∨ c ∈ tw ∨ c ∈ li then (c :: v, u) else (v, c :: u)

/-! ### Resume-sanity heuristic (`api/endpoints/resume.py`,
`process_resume`) -/

/-- The parsed-resume fields the heuristic reads.  Entry contents of the
experience / education / projects lists are irrelevant to the heuristic
(only Python truthiness, i.e. non-emptiness, is tested). -/
structure ParsedSignals where
  email : Option String
  phone : Option String
  skills : List String
  education : List String
  experience : List String
  projects : List String
deriving Repr, DecidableEq

/-- The résumé-keyword list of `process_resume`. -/
def resumeKeywords : List String :=
  ["experience", "work experience", "education", "skills", "projects",
   "summary", "objective", "certifications"]

/-- The signal count computed by `process_resume` (each truthy field plus
the keyword hit contributes one). -/
def resumeSignals (p : ParsedSignals) (rawText : String) : ℕ :=
  let text := pyLower rawText
  (if pyTruthyStr p.email then 1 else 0) +
  (if pyTruthyStr p.phone then 1 else 0) +
  (if !p.skills.isEmpty then 1 else 0) +
  (if !p.education.isEmpty then 1 else 0) +
  (if !p.experience.isEmpty then 1 else 0) +
  (if !p.projects.isEmpty then 1 else 0) +
  (if resumeKeywords.any (fun k => strContainsSub text k) then 1 else 0)

/-- The rejection decision of `process_resume`
(`if signals <= 1 or (len(text) < 300 and signals <= 2)`). -/
def resumeSanityReject (p : ParsedSignals) (rawText : String) : Bool :=
  let text := pyLower rawText
  let signals := resumeSignals p rawText
  decide (signals ≤ 1) || (decide (text.length < 300) && decide (signals ≤ 2))

/-! ### Theorems for claims C1, C2, C3, C7 -/

/-- Claim C1: for every skills list and projects list submitted to
verification, the categorization loop of `process_verification` produces a
total and disjoint partition per category: every original claimed skill
(resp. project name) lands in exactly one of the verified / unverified
buckets, the bucket sizes sum to the original count, and no element lies
in both buckets. -/
theorem C1_partition_total_disjoint
    (skills projects ghS twS liS ghP twP liP : List String) :
    ((partitionClaims skills ghS twS liS).1.length +
        (partitionClaims skills ghS twS liS).2.length = skills.length ∧
      (∀ s ∈ skills, (s ∈ (partitionClaims skills ghS twS liS).1 ∧
            s ∉ (partitionClaims skills ghS twS liS).2) ∨
          (s ∈ (partitionClaims skills ghS twS liS).2 ∧
            s ∉ (partitionClaims skills ghS twS liS).1)) ∧
      ∀ s, ¬(s ∈ (partitionClaims skills ghS twS liS).1 ∧
          s ∈ (partitionClaims skills ghS twS liS).2)) ∧
    ((partitionClaims projects ghP twP liP).1.length +
        (partitionClaims projects ghP twP liP).2.length = projects.length ∧
      (∀ s ∈ projects, (s ∈ (partitionClaims projects ghP twP liP).1 ∧
            s ∉ (partitionClaims projects ghP twP liP).2) ∨
          (s ∈ (partitionClaims projects ghP twP liP).2 ∧
            s ∉ (partitionClaims projects ghP twP liP).1)) ∧
      ∀ s, ¬(s ∈ (partitionClaims projects ghP twP liP).1 ∧
          s ∈ (partitionClaims projects ghP twP liP).2)) := by
  have key : ∀ (claims gh tw li : List String),
      (partitionClaims claims gh tw li).1.length +
        (partitionClaims claims gh tw li).2.length = claims.length ∧
      (∀ s ∈ claims, (s ∈ (partitionClaims claims gh tw li).1 ∧
            s ∉ (partitionClaims claims gh tw li).2) ∨
          (s ∈ (partitionClaims claims gh tw li).2 ∧
            s ∉ (partitionClaims claims gh tw li).1)) ∧
      ∀ s, ¬(s ∈ (partitionClaims claims gh tw li).1 ∧
          s ∈ (partitionClaims claims gh tw li).2) := by
    intro claims gh tw li
    have memChar : ∀ (claims : List String) (s : String),
        (s ∈ (partitionClaims claims gh tw li).1 →
          s ∈ claims ∧ (s ∈ gh ∨ s ∈ tw ∨ s ∈ li)) ∧
        (s ∈ (partitionClaims claims gh tw li).2 →
          s ∈ claims ∧ ¬(s ∈ gh ∨ s ∈ tw ∨ s ∈ li)) := by
      intro claims s
      induction claims with
      | nil => simp [partitionClaims]
      | cons c rest ih =>
        by_cases h : c ∈ gh ∨ c ∈ tw ∨ c ∈ li
        · simp only [partitionClaims, if_pos h]
          constructor
          · intro hs
            rcases List.mem_cons.mp hs with rfl | hs
            · exact ⟨List.mem_cons_self _ _, h⟩
            · exact ⟨List.mem_cons_of_mem _ (ih.1 hs).1, (ih.1 hs).2⟩
          · intro hs
            exact ⟨List.mem_cons_of_mem _ (ih.2 hs).1, (ih.2 hs).2⟩
        · simp only [partitionClaims, if_neg h]
          constructor
          · intro hs
            exact ⟨List.mem_cons_of_mem _ (ih.1 hs).1, (ih.1 hs).2⟩
          · intro hs
            rcases List.mem_cons.mp hs with rfl | hs
            · exact ⟨List.mem_cons_self _ _, h⟩
            · exact ⟨List.mem_cons_of_mem _ (ih.2 hs).1, (ih.2 hs).2⟩
    refine ⟨?_, ?_, ?_⟩
    · induction claims with
      | nil => simp [partitionClaims]
      | cons c rest ih =>
        by_cases h : c ∈ gh ∨ c ∈ tw ∨ c ∈ li <;>
          simp [partitionClaims, h] <;> omega
    · intro s hs
      induction claims with
      | nil => cases hs
      | cons c rest ih =>
        by_cases h : c ∈ gh ∨ c ∈ tw ∨ c ∈ li
        · simp only [partitionClaims, if_pos h]
          rcases List.mem_cons.mp hs with rfl | hs'
          · exact Or.inl ⟨List.mem_cons_self _ _,
              fun hc => ((memChar rest s).2 hc).2 h⟩
          · rcases ih hs' with ⟨h1, h2⟩ | ⟨h1, h2⟩
            · exact Or.inl ⟨List.mem_cons_of_mem _ h1, h2⟩
            · refine Or.inr ⟨h1, fun hc => ?_⟩
              rcases List.mem_cons.mp hc with rfl | hc'
              · exact ((memChar rest s).2 h1).2 h
              · exact h2 hc'
        · simp only [partitionClaims, if_neg h]
          rcases List.mem_cons.mp hs with rfl | hs'
          · exact Or.inr ⟨List.mem_cons_self _ _,
              fun hc => h ((memChar rest s).1 hc).2⟩
          · rcases ih hs' with ⟨h1, h2⟩ | ⟨h1, h2⟩
            · refine Or.inl ⟨h1, fun hc => ?_⟩
              rcases List.mem_cons.mp hc with rfl | hc'
              · exact h ((memChar rest s).1 h1).2
              · exact h2 hc'
            · exact Or.inr ⟨List.mem_cons_of_mem _ h1, h2⟩
    · intro s ⟨h1, h2⟩
      exact ((memChar claims s).2 h2).2 ((memChar claims s).1 h1).2
  exact ⟨key skills ghS twS liS, key projects ghP twP liP⟩

/-- Claim C2: for every combination of inputs, the deterministic
rule-based final composite score returned by `calculate_reality_score`
equals `((0.5·codeHost + 0.3·social + 0.2·professional) +
(0.6·skills + 0.4·projects)) / 2`, clamped to `[0, 100]`. -/
theorem C2_composite_formula
    (gh : Option GithubResults) (tw : Option TwitterResults)
    (li : Option LinkedinResults)
    (vs us vp up : List String) :
    (calculate_reality_score gh tw li vs us vp up).1 =
      max 0 (min 100
        ((((1/2 : ℚ) * calculate_github_score gh +
           (3/10 : ℚ) * calculate_twitter_score tw +
           (1/5 : ℚ) * calculate_linkedin_score li) +
          ((3/5 : ℚ) * calculate_skills_score vs us +
           (2/5 : ℚ) * calculate_projects_score vp up)) / 2)) := by
  simp only [calculate_reality_score]
  congr 1
  congr 1
  ring

/-- Claim C3: every sub-score and the final composite score lie in
`[0, 100]` for all verification inputs with non-negative contribution
values (repository / language / tweet counts are list lengths and hence
non-negative by construction). -/
theorem C3_score_bounds
    (gh : Option GithubResults) (tw : Option TwitterResults)
    (li : Option LinkedinResults)
    (vs us vp up : List String)
    (hc : ∀ r, gh = some r → 0 ≤ r.contributions) :
    (0 ≤ calculate_github_score gh ∧ calculate_github_score gh ≤ 100) ∧
    (0 ≤ calculate_twitter_score tw ∧ calculate_twitter_score tw ≤ 100) ∧
    (0 ≤ calculate_linkedin_score li ∧ calculate_linkedin_score li ≤ 100) ∧
    (0 ≤ calculate_skills_score vs us ∧ calculate_skills_score vs us ≤ 100) ∧
    (0 ≤ calculate_projects_score vp up ∧ calculate_projects_score vp up ≤ 100) ∧
    (0 ≤ (calculate_reality_score gh tw li vs us vp up).1 ∧
      (calculate_reality_score gh tw li vs us vp up).1 ≤ 100) := by
  have ratio_bounds : ∀ (a b : ℕ),
      (0 ≤ (if a + b = 0 then (0 : ℚ) else ((a : ℚ) / ((a + b : ℕ) : ℚ)) * 100) ∧
       (if a + b = 0 then (0 : ℚ) else ((a : ℚ) / ((a + b : ℕ) : ℚ)) * 100) ≤ 100) := by
    intro a b
    by_cases h : a + b = 0
    · simp [h]
    · have hpos : (0 : ℚ) < ((a + b : ℕ) : ℚ) := by
        exact_mod_cast Nat.pos_of_ne_zero h
      have hle : ((a : ℚ)) ≤ ((a + b : ℕ) : ℚ) := by
        exact_mod_cast Nat.le_add_right a b
      have h1 : (0 : ℚ) ≤ (a : ℚ) / ((a + b : ℕ) : ℚ) :=
        div_nonneg (by positivity) (le_of_lt hpos)
      have h2 : (a : ℚ) / ((a + b : ℕ) : ℚ) ≤ 1 := (div_le_one hpos).mpr hle
      rw [if_neg h]
      constructor
      · nlinarith
      · nlinarith
  have hG : 0 ≤ calculate_github_score gh ∧ calculate_github_score gh ≤ 100 := by
    match gh with
    | none => simp [calculate_github_score]
    | some r =>
      have hc' : 0 ≤ r.contributions := hc r rfl
      by_cases he : r.error.isSome
      · simp [calculate_github_score, he]
      · simp only [calculate_github_score, if_neg he]
        have a1 : (0 : ℚ) ≤ min 25 (5 * (r.repositories.length : ℚ)) :=
          le_min (by norm_num) (by positivity)
        have a2 : (0 : ℚ) ≤ min 25 (5 * (r.languages.length : ℚ)) :=
          le_min (by norm_num) (by positivity)
        have a3 : (0 : ℚ) ≤ min 20 (r.contributions / 25) :=
          le_min (by norm_num) (by positivity)
        have a4 : (0 : ℚ) ≤ min 30 (3 * ((r.verified_skills.length : ℚ) +
            (r.verified_projects.length : ℚ))) :=
          le_min (by norm_num) (by positivity)
        have b1 := min_le_left (25 : ℚ) (5 * (r.repositories.length : ℚ))
        have b2 := min_le_left (25 : ℚ) (5 * (r.languages.length : ℚ))
        have b3 := min_le_left (20 : ℚ) (r.contributions / 25)
        have b4 := min_le_left (30 : ℚ) (3 * ((r.verified_skills.length : ℚ) +
            (r.verified_projects.length : ℚ)))
        constructor <;> linarith
  have hT : 0 ≤ calculate_twitter_score tw ∧ calculate_twitter_score tw ≤ 100 := by
    match tw with
    | none => simp [calculate_twitter_score]
    | some r =>
      by_cases he : r.error.isSome
      · simp [calculate_twitter_score, he]
      · simp only [calculate_twitter_score, if_neg he]
        have a1 : (0 : ℚ) ≤ min 40 (8 * (r.tweets.length : ℚ)) :=
          le_min (by norm_num) (by positivity)
        have a2 : (0 : ℚ) ≤ min 60 (6 * ((r.verified_skills.length : ℚ) +
            (r.verified_projects.length : ℚ))) :=
          le_min (by norm_num) (by positivity)
        have b1 := min_le_left (40 : ℚ) (8 * (r.tweets.length : ℚ))
        have b2 := min_le_left (60 : ℚ) (6 * ((r.verified_skills.length : ℚ) +
            (r.verified_projects.length : ℚ)))
        constructor <;> linarith
  have hL : 0 ≤ calculate_linkedin_score li ∧ calculate_linkedin_score li ≤ 100 := by
    match li with
    | none => simp [calculate_linkedin_score]
    | some r =>
      by_cases he : r.error.isSome
      · simp [calculate_linkedin_score, he]
      · simp only [calculate_linkedin_score, if_neg he]
        have a2 : (0 : ℚ) ≤ min 60 (6 * ((r.verified_skills.length : ℚ) +
            (r.verified_projects.length : ℚ))) :=
          le_min (by norm_num) (by positivity)
        have b2 := min_le_left (60 : ℚ) (6 * ((r.verified_skills.length : ℚ) +
            (r.verified_projects.length : ℚ)))
        match r.profile with
        | none => simp only; constructor <;> linarith
        | some p =>
          simp only
          have hp1 : (0 : ℚ) ≤ (if pyTruthyStr p.name then 10 else 0) := by
            split <;> norm_num
          have hp1' : (if pyTruthyStr p.name then (10 : ℚ) else 0) ≤ 10 := by
            split <;> norm_num
          have hp2 : (0 : ℚ) ≤ (if pyTruthyStr p.headline then 10 else 0) := by
            split <;> norm_num
          have hp2' : (if pyTruthyStr p.headline then (10 : ℚ) else 0) ≤ 10 := by
            split <;> norm_num
          have hp3 : (0 : ℚ) ≤ (if !p.skills.isEmpty then 20 else 0) := by
            split <;> norm_num
          have hp3' : (if !p.skills.isEmpty then (20 : ℚ) else 0) ≤ 20 := by
            split <;> norm_num
          constructor <;> linarith
  have hS := ratio_bounds vs.length us.length
  have hP := ratio_bounds vp.length up.length
  have hSS : 0 ≤ calculate_skills_score vs us ∧ calculate_skills_score vs us ≤ 100 := by
    simpa [calculate_skills_score] using hS
  have hPP : 0 ≤ calculate_projects_score vp up ∧
      calculate_projects_score vp up ≤ 100 := by
    simpa [calculate_projects_score] using hP
  refine ⟨hG, hT, hL, hSS, hPP, ?_, ?_⟩
  · simp only [calculate_reality_score]
    exact le_max_left 0 _
  · simp only [calculate_reality_score]
    exact max_le (by norm_num) (min_le_left 100 _)

/-- A concrete GitHub snapshot (4 repositories, 3 languages, 500
contributions, 2 verified skills, 1 verified project). -/
def sampleGithubResults : GithubResults :=
  { verified_skills := ["Python", "React"]
    verified_projects := ["Questfi"]
    repositories := ["r1", "r2", "r3", "r4"]
    languages := ["JavaScript", "Python", "Solidity"]
    contributions := 500
    error := none }

/-- Witness for C3: the bounds theorem applied at a concrete input. -/
theorem C3_score_bounds_witness :
    (0 ≤ calculate_github_score (some sampleGithubResults) ∧
      calculate_github_score (some sampleGithubResults) ≤ 100) ∧
    (0 ≤ calculate_twitter_score none ∧ calculate_twitter_score none ≤ 100) ∧
    (0 ≤ calculate_linkedin_score none ∧ calculate_linkedin_score none ≤ 100) ∧
    (0 ≤ calculate_skills_score ["Python"] [] ∧
      calculate_skills_score ["Python"] [] ≤ 100) ∧
    (0 ≤ calculate_projects_score [] ["Questfi"] ∧
      calculate_projects_score [] ["Questfi"] ≤ 100) ∧
    (0 ≤ (calculate_reality_score (some sampleGithubResults) none none
        ["Python"] [] [] ["Questfi"]).1 ∧
      (calculate_reality_score (some sampleGithubResults) none none
        ["Python"] [] [] ["Questfi"]).1 ≤ 100) :=
  C3_score_bounds (some sampleGithubResults) none none ["Python"] [] [] ["Questfi"]
    (by intro r h; cases h; norm_num [sampleGithubResults])

/-- Claim C7: the résumé-sanity heuristic of `process_resume` rejects the
parsed document exactly when the signal count is at most 1, or the
signal count is at most 2 and the (lowered) raw text is shorter than 300
characters; in particular zero signals with short text is rejected. -/
theorem C7_sanity_reject_iff (p : ParsedSignals) (raw : String) :
    resumeSanityReject p raw = true ↔
      (resumeSignals p raw ≤ 1 ∨
        (resumeSignals p raw ≤ 2 ∧ (pyLower raw).length < 300)) := by
  simp only [resumeSanityReject, Bool.or_eq_true, Bool.and_eq_true,
    decide_eq_true_eq]
  tauto

/-! ### EvidenceSource variants (`services/github_service.py`,
`services/twitter_service.py`, `services/linkedin_service.py`)

Each `verify_*_claims` function wraps its body in `try/except` and on any
internal exception returns an empty snapshot carrying an `error` string;
the fallible part (the network fetch) is threaded in as an `Except`
value, and the Lean functions are total, so no exception reaches the
caller.  Display-only `proof` dictionaries are not modelled. -/

/-- A GitHub repository record (the fields the matching code reads).
`description` and `language` may be `None`; `commit_history` is only
present on the mock data (`"commit_history" in repo`). -/
structure GithubRepo where
  name : String
  description : Option String
  language : Option String
  commit_history : Option (List String)
deriving Repr, DecidableEq

/-- `get_user_languages`: first-occurrence histogram keys of the truthy
`language` fields (Python dict preserves insertion order). -/
def githubLanguages (repos : List GithubRepo) : List String :=
  repos.foldl
    (fun acc r =>
      match r.language with
      | none => acc
      | some l => if l = "" then acc else if l ∈ acc then acc else acc ++ [l])
    []

def githubAutoSkillTerms : List String :=
  ["github", "git", "version control", "source control", "code management"]

def problemSolvingTerms : List String :=
  ["problem solving", "problem-solving", "analytical thinking", "debugging",
   "troubleshooting"]

/-- The `skill_synonyms` table of `verify_skills`. -/
def skillSynonyms : List (String × List String) :=
  [("python", ["python", "django", "flask", "fastapi", "pandas", "numpy", "jupyter", "py"]),
   ("javascript", ["javascript", "js", "node", "react", "vue", "angular", "typescript", "ts", "nodejs"]),
   ("leadership", ["leadership", "lead", "team lead", "project management", "managed", "coordinated", "manager"]),
   ("community management", ["community", "engagement", "moderation", "forum", "social media", "discord", "reddit"]),
   ("machine learning", ["ml", "ai", "artificial intelligence", "neural network", "deep learning", "tensorflow", "pytorch"]),
   ("nlp", ["natural language processing", "text analysis", "language model", "tokenization", "spacy"]),
   ("teamwork", ["team", "collaboration", "collaborative", "group project", "worked together"]),
   ("blockchain", ["blockchain", "crypto", "cryptocurrency", "bitcoin", "ethereum", "solidity", "web3", "defi", "smart contracts"]),
   ("data analysis", ["data", "analytics", "pandas", "numpy", "matplotlib", "seaborn", "jupyter", "analysis"]),
   ("data sharing", ["data", "sharing", "api", "rest", "graphql", "database", "mongodb", "sql"]),
   ("monetization", ["monetization", "payment", "paypal", "stripe", "revenue", "subscription", "billing"]),
   ("decentralized", ["decentralized", "distributed", "p2p", "peer-to-peer", "blockchain", "web3"]),
   ("platform", ["platform", "service", "application", "system", "framework"])]

/-- Related terms for a (lowered) skill: union of every synonym row whose
key list contains the skill or one of whose terms occurs in the skill;
the skill itself when nothing matched. -/
def githubRelatedTerms (skill_lower : String) : List String :=
  let collected := skillSynonyms.foldl
    (fun acc kv =>
      if skill_lower ∈ kv.2 ∨ kv.2.any (fun term => strContainsSub skill_lower term)
      then acc ++ kv.2 else acc) []
  if collected.isEmpty then [skill_lower] else collected

/-- The auto-verification pass of GitHub `verify_skills` (generic
version-control / problem-solving skills verified whenever activity is
decent). -/
def githubAutoVerify (skills : List String) (decent : Bool) : List String :=
  if decent then
    skills.foldl
      (fun vs skill =>
        let sl := pyLower skill
        if githubAutoSkillTerms.any (fun t => strContainsSub sl t) then
          if skill ∈ vs then vs else vs ++ [skill]
        else if problemSolvingTerms.any (fun t => strContainsSub sl t) then
          if skill ∈ vs then vs else vs ++ [skill]
        else vs)
      []
  else []

/-- The language / repository matching pass of GitHub `verify_skills`. -/
def githubSkillMatch (repos : List GithubRepo) (langs : List String)
    (vs0 : List String) (skills : List String) : List String :=
  skills.foldl
    (fun vs skill =>
      if skill ∈ vs then vs
      else
        let sl := pyLower skill
        let related := githubRelatedTerms sl
        let langHit := langs.any fun lang =>
          sl = pyLower lang || strContainsSub (pyLower lang) sl ||
            related.any (fun term => strContainsSub (pyLower lang) term)
        if langHit then vs ++ [skill]
        else
          let repoHit := repos.any fun repo =>
            let rn := pyLower repo.name
            let rd := match repo.description with
              | none => ""
              | some d => if d = "" then "" else pyLower d
            (strContainsSub rn sl || related.any (fun t => strContainsSub rn t)) ||
            (strContainsSub rd sl || related.any (fun t => strContainsSub rd t)) ||
            (match repo.commit_history with
              | none => false
              | some commits => commits.any fun cm =>
                  let cl := pyLower cm
                  strContainsSub cl sl || related.any (fun t => strContainsSub cl t))
          if repoHit then vs ++ [skill] else vs)
    vs0

/-- GitHub `verify_skills` (verified list; proof strings omitted). -/
def github_verify_skills (skills : List String) (repos : List GithubRepo)
    (langs : List String) : List String :=
  let decent := repos.length ≥ 3 || langs.length ≥ 2
  githubSkillMatch repos langs (githubAutoVerify skills decent) skills

/-- `normalize_name` inside GitHub `verify_projects`. -/
def normalizeName (name : String) : String :=
  let l1 := (pyLower name).toList.filter fun c =>
    asciiAlpha c || asciiDigit c || pyIsSpace c || c = '-' || c = '_'
  let l2 := collapseRuns (fun c => pyIsSpace c || c = '_') '-' l1
  let l3 := collapseRuns (fun c => c = '-') '-' l2
  String.mk (((l3.dropWhile (· = '-')).reverse.dropWhile (· = '-')).reverse)

def importantProjectWords : List String :=
  ["decentralized", "decentralised", "blockchain", "data", "sharing",
   "monetization", "monetisation", "platform", "system", "application", "app",
   "website", "tool", "api", "service", "framework", "library", "parser",
   "analyzer", "engine", "manager", "tracker", "dashboard", "portal"]

def smallConnectiveWords : List String :=
  ["a", "an", "the", "and", "or", "for", "with", "based", "using", "on", "in",
   "of", "to"]

/-- Character-for-character replacement on a string. -/
def replaceChar (a b : Char) (s : String) : String :=
  String.mk (s.toList.map fun c => if c = a then b else c)

/-- Character removal on a string. -/
def removeChar (a : Char) (s : String) : String :=
  String.mk (s.toList.filter (· ≠ a))

/-- Exact first-occurrence deduplication (the source's `list(set(...))` is
only ever queried for membership, which this preserves). -/
def dedupExact : List String → List String
  | [] => []
  | s :: t => if s ∈ t then dedupExact t else s :: dedupExact t

/-- `get_name_variants` inside GitHub `verify_projects` (used only through
membership tests, so the unspecified `set` ordering is immaterial). -/
def getNameVariants (name0 : String) : List String :=
  if name0 = "" then []
  else
    let name := pyStrip name0
    let base := normalizeName name
    let variants :=
      [pyLower name, base, removeChar '-' base, replaceChar '-' '_' base,
       replaceChar '-' ' ' base]
    let variants :=
      if strContainsSub name " " then
        variants ++ [replaceChar ' ' '-' (pyLower name),
          replaceChar ' ' '_' (pyLower name), removeChar ' ' (pyLower name)]
      else variants
    let variants :=
      if name.length > 50 then
        let key_terms := (pySplitWs (pyLower name)).filter fun w =>
          w ∉ smallConnectiveWords && (w ∈ importantProjectWords || w.length > 4)
        let twoWord :=
          (key_terms.zip key_terms.tail).foldl
            (fun acc wp =>
              let tw := wp.1 ++ "-" ++ wp.2
              acc ++ [tw, removeChar '-' tw, replaceChar '-' '_' tw]) []
        let threeWord :=
          match key_terms with
          | k0 :: k1 :: k2 :: _ =>
            let tw := k0 ++ "-" ++ k1 ++ "-" ++ k2
            [tw, removeChar '-' tw]
          | _ => []
        if key_terms.length ≥ 2 then variants ++ twoWord ++ threeWord else variants
      else variants
    dedupExact (variants.filter (· ≠ ""))

/-- GitHub `verify_projects` (verified list; proof strings omitted). -/
def githubProjectMatch (projects : List String) (repos : List GithubRepo) :
    List String :=
  projects.foldl
    (fun vps project =>
      let project_name := pyStrip project
      if project_name = "" then vps
      else
        let pvars := getNameVariants project_name
        let hit := repos.any fun repo =>
          let repo_name := pyStrip repo.name
          if repo_name = "" then false
          else
            let rvars := getNameVariants repo_name
            let exact := pvars.any (· ∈ rvars)
            let pl := pyStrip (pyLower project_name)
            let rl := pyStrip (pyLower repo_name)
            let contains_m :=
              if exact then false
              else if strContainsSub rl pl || strContainsSub pl rl then true
              else if (pySplitWs project_name).length > 1 then
                (pySplitWs (pyLower project_name)).all
                  (· ∈ pySplitWs (pyLower repo_name))
              else if normalizeName project_name = normalizeName repo_name then true
              else
                (pl.toList ++ ['-']).isPrefixOf rl.toList ||
                (pl.toList ++ ['_']).isPrefixOf rl.toList ||
                ('-' :: pl.toList).isSuffixOf rl.toList ||
                ('_' :: pl.toList).isSuffixOf rl.toList
            let desc := match repo.description with | none => "" | some d => d
            let desc_m :=
              if exact || contains_m then false
              else if desc = "" then false
              else strContainsSub (pyLower desc) (pyLower project_name)
            exact || contains_m || desc_m
        if hit then vps ++ [project_name] else vps)
    []

/-- `verify_github_claims` over the outcome of the repository fetch
(`get_user_contributions` is the constant mock value 500). -/
def verify_github_claims (fetch : Except String (List GithubRepo))
    (skills projects : List String) : GithubResults :=
  match fetch with
  | .error e => ⟨[], [], [], [], 0, some e⟩
  | .ok repos =>
    let langs := githubLanguages repos
    ⟨github_verify_skills skills repos langs,
     githubProjectMatch projects repos,
     repos.map (·.name), langs, 500, none⟩

/-- `verify_twitter_claims` over the outcome of the tweet fetch. -/
def verify_twitter_claims (fetch : Except String (List String))
    (skills projects : List String) : TwitterResults :=
  match fetch with
  | .error e => ⟨[], [], [], some e⟩
  | .ok tweets =>
    ⟨skills.filter fun s =>
        tweets.any fun t => strContainsSub (pyLower t) (pyLower s),
     projects.filter fun p =>
        tweets.any fun t => strContainsSub (pyLower t) (pyLower p),
     tweets, none⟩

def teamSkillKeywords : List String :=
  ["team", "collaboration", "leadership", "communication", "teamwork"]

/-- LinkedIn `verify_skills` (verified list; proof strings omitted). -/
def linkedin_verify_skills (skills : List String) (profile : LinkedinProfile) :
    List String :=
  skills.foldl
    (fun vs skill =>
      let sl := pyLower skill
      let inSkills := profile.skills.any fun lk =>
        sl = pyLower lk || strContainsSub (pyLower lk) sl
      let vs1 := if inSkills then vs ++ [skill] else vs
      let vs2 :=
        if skill ∈ vs1 then vs1
        else
          let expHit := profile.experience.any fun exp =>
            let desc := pyLower exp.2.2
            let title := pyLower exp.1
            ((strContainsSub title "hackathon" || strContainsSub desc "hackathon") &&
              (strContainsSub desc sl ||
                teamSkillKeywords.any fun kw => strContainsSub sl kw)) ||
            strContainsSub desc sl
          if expHit then vs1 ++ [skill] else vs1
      if skill ∈ vs2 then vs2
      else
        let teamHit :=
          (teamSkillKeywords.any fun kw => strContainsSub sl kw) &&
          profile.experience.any fun exp =>
            teamSkillKeywords.any fun kw => strContainsSub (pyLower exp.2.2) kw
        if teamHit then vs2 ++ [skill] else vs2)
    []

/-- LinkedIn `verify_projects` (verified list; proof strings omitted). -/
def linkedin_verify_projects (projects : List String)
    (profile : LinkedinProfile) : List String :=
  projects.foldl
    (fun vps project_name =>
      let pl := pyLower project_name
      let inProjects := profile.projects.any fun lp =>
        pl = pyLower lp.1 || strContainsSub (pyLower lp.1) pl ||
          strContainsSub (pyLower lp.2) pl
      let vs1 := if inProjects then vps ++ [project_name] else vps
      let vs2 :=
        if project_name ∈ vs1 then vs1
        else
          let expHit := profile.experience.any fun exp =>
            let desc := pyLower exp.2.2
            let title := pyLower exp.1
            ((strContainsSub title "hackathon" || strContainsSub desc "hackathon") &&
              (strContainsSub desc pl || strContainsSub title pl)) ||
            strContainsSub desc pl
          if expHit then vs1 ++ [project_name] else vs1
      if project_name ∈ vs2 then vs2
      else
        let eduHit := profile.education.any fun edu =>
          let d := pyLower edu.2.2
          strContainsSub d pl && (strContainsSub d "team" || strContainsSub d "group")
        if eduHit then vs2 ++ [project_name] else vs2)
    []

/-- `verify_linkedin_claims` over the outcome of the profile fetch. -/
def verify_linkedin_claims (fetch : Except String LinkedinProfile)
    (skills projects : List String) : LinkedinResults :=
  match fetch with
  | .error e => ⟨[], [], none, some e⟩
  | .ok profile =>
    ⟨linkedin_verify_skills skills profile,
     linkedin_verify_projects projects profile, some profile, none⟩

/-- Claim C8: each EvidenceSource verification call is a total function
of the fetch outcome (no exception reaches the caller); an internal
error yields a snapshot with empty verified lists and the error string
recorded, and such an error-carrying snapshot — as well as the empty
snapshot passed when no username was given — scores 0. -/
theorem C8_source_error_envelope (e : String) (skills projects : List String) :
    ((verify_github_claims (.error e) skills projects).verified_skills = [] ∧
      (verify_github_claims (.error e) skills projects).verified_projects = [] ∧
      (verify_github_claims (.error e) skills projects).error = some e ∧
      calculate_github_score (some (verify_github_claims (.error e) skills projects)) = 0 ∧
      calculate_github_score none = 0) ∧
    ((verify_twitter_claims (.error e) skills projects).verified_skills = [] ∧
      (verify_twitter_claims (.error e) skills projects).verified_projects = [] ∧
      (verify_twitter_claims (.error e) skills projects).error = some e ∧
      calculate_twitter_score (some (verify_twitter_claims (.error e) skills projects)) = 0 ∧
      calculate_twitter_score none = 0) ∧
    ((verify_linkedin_claims (.error e) skills projects).verified_skills = [] ∧
      (verify_linkedin_claims (.error e) skills projects).verified_projects = [] ∧
      (verify_linkedin_claims (.error e) skills projects).error = some e ∧
      calculate_linkedin_score (some (verify_linkedin_claims (.error e) skills projects)) = 0 ∧
      calculate_linkedin_score none = 0) := by
  refine ⟨⟨rfl, rfl, rfl, ?_, rfl⟩, ⟨rfl, rfl, rfl, ?_, rfl⟩,
    ⟨rfl, rfl, rfl, ?_, rfl⟩⟩ <;> rfl

/-! ### TextExtractor post-processing (`services/resume_parser.py`,
`clean_pdf_text`) -/

/-- Python `str.replace(needle, repl)`: all non-overlapping occurrences,
left to right (fuel-structured recursion). -/
def replaceSubGo (needle repl : List Char) : ℕ → List Char → List Char
  | 0, cs => cs
  | _ + 1, [] => []
  | n + 1, c :: t =>
    if needle.isPrefixOf (c :: t) && !needle.isEmpty then
      repl ++ replaceSubGo needle repl n (t.drop (needle.length - 1))
    else c :: replaceSubGo needle repl n t

def pyReplace (s needle repl : String) : String :=
  String.mk (replaceSubGo needle.toList repl.toList s.toList.length s.toList)

/-- The program's canonical em-dash: the (double-encoded) three-character
sequence the source writes where an em-dash is intended. -/
def emDashSeq : String := "â€”"

/-- The program's en-dash sequence (normalized to `emDashSeq`). -/
def enDashSeq : String := "â€“"

/-- The program's minus-sign sequence (normalized to `emDashSeq`). -/
def minusSeq : String := "âˆ’"

/-- `re.sub(r'\n[ \t]+', '\n', ...)`: drop space/tab runs that follow a
newline (fuel-structured). -/
def dropAfterNlGo : ℕ → List Char → List Char
  | 0, cs => cs
  | _ + 1, [] => []
  | n + 1, c :: t =>
    if c = '\n' then c :: dropAfterNlGo n (t.dropWhile fun d => d = ' ' || d = '\t')
    else c :: dropAfterNlGo n t

def dropAfterNl (cs : List Char) : List Char := dropAfterNlGo cs.length cs

/-- `re.sub(r'[ \t]+\n', '\n', ...)`: drop space/tab runs that
immediately precede a newline (fuel-structured). -/
def dropBeforeNlGo : ℕ → List Char → List Char
  | 0, cs => cs
  | _ + 1, [] => []
  | n + 1, c :: t =>
    if c = ' ' || c = '\t' then
      let sp := t.takeWhile fun d => d = ' ' || d = '\t'
      let rest := t.dropWhile fun d => d = ' ' || d = '\t'
      if rest.head? = some '\n' then dropBeforeNlGo n rest
      else (c :: sp) ++ dropBeforeNlGo n rest
    else c :: dropBeforeNlGo n t

def dropBeforeNl (cs : List Char) : List Char := dropBeforeNlGo cs.length cs

/-- `re.sub(r'\n{3,}', '\n\n', ...)` (fuel-structured). -/
def collapseNl3Go : ℕ → List Char → List Char
  | 0, cs => cs
  | _ + 1, [] => []
  | n + 1, c :: t =>
    if c = '\n' then
      let nls := t.takeWhile (· = '\n')
      let rest := t.dropWhile (· = '\n')
      if nls.length + 1 ≥ 3 then '\n' :: '\n' :: collapseNl3Go n rest
      else (c :: nls) ++ collapseNl3Go n rest
    else c :: collapseNl3Go n t

def collapseNl3 (cs : List Char) : List Char := collapseNl3Go cs.length cs

/-- One attempt of the broken-word pattern
`\b([a-zA-Z])\s+([a-zA-Z])\s+([a-zA-Z]{2,})\b` at the current position
(`prev` is the preceding character, for the leading `\b`).  On success
returns the replacement `\1\2\3` and the unconsumed remainder. -/
def rejoinTry (prev : Option Char) (cs : List Char) :
    Option (List Char × List Char) :=
  match cs with
  | [] => none
  | a :: rest =>
    if asciiAlpha a && (match prev with | none => true | some p => !pyIsWord p) then
      let w1 := rest.takeWhile pyIsSpace
      let r1 := rest.dropWhile pyIsSpace
      if w1.isEmpty then none
      else
        match r1 with
        | [] => none
        | b :: r2 =>
          if asciiAlpha b then
            let w2 := r2.takeWhile pyIsSpace
            let r3 := r2.dropWhile pyIsSpace
            if w2.isEmpty then none
            else
              let run := r3.takeWhile asciiAlpha
              let r4 := r3.dropWhile asciiAlpha
              if 2 ≤ run.length &&
                  !(match r4.head? with | none => false | some d => pyIsWord d) then
                some (a :: b :: run, r4)
              else none
          else none
    else none

/-- The single left-to-right `re.sub` pass for the broken-word pattern:
on a match, emit the replacement and continue scanning after the match
(the replaced text is not rescanned — applied once, not recursively). -/
def rejoinGo : ℕ → Option Char → List Char → List Char
  | 0, _, cs => cs
  | n + 1, prev, cs =>
    match rejoinTry prev cs with
    | some (repl, rem) => repl ++ rejoinGo n repl.getLast? rem
    | none =>
      match cs with
      | [] => []
      | c :: t => c :: rejoinGo n (some c) t

/-- The broken-word rejoin pass of `clean_pdf_text`. -/
def rejoinBrokenWords (s : String) : String :=
  String.mk (rejoinGo s.toList.length none s.toList)

/-- `clean_pdf_text`. -/
def clean_pdf_text (s : String) : String :=
  if s = "" then ""
  else
    let t := pyReplace s "\x00" " "
    let t := pyReplace t enDashSeq emDashSeq
    let t := pyReplace t minusSeq emDashSeq
    let t := String.mk (collapseRuns (fun c => c = ' ' || c = '\t') ' ' t.toList)
    let t := String.mk (dropAfterNl t.toList)
    let t := String.mk (dropBeforeNl t.toList)
    let t := String.mk (collapseNl3 t.toList)
    let t := rejoinBrokenWords t
    pyStrip t

/-- Claim C10, counterexample: on `"w or ld"` the middle token `"or"` is
2 characters long, so by the claim the three tokens would be joined into
`"world"`; the cleaning pass leaves the text unchanged (its pattern
requires the first two tokens to be single letters). -/
theorem C10_counterexample :
    clean_pdf_text "w or ld" = "w or ld" ∧ "w or ld" ≠ "world" := by
  constructor
  · rfl
  · decide

theorem alpha_not_space (c : Char) (h : asciiAlpha c = true) :
    pyIsSpace c = false := by
  by_contra hs
  simp only [Bool.not_eq_false, pyIsSpace, Bool.or_eq_true, decide_eq_true_eq] at hs
  rcases hs with ((((h1 | h1) | h1) | h1) | h1) | h1 <;>
    subst h1 <;> simp [asciiAlpha] at h

theorem takeWhile_all (p : Char → Bool) (l : List Char)
    (h : ∀ c ∈ l, p c = true) : l.takeWhile p = l ∧ l.dropWhile p = [] := by
  induction l with
  | nil => simp
  | cons c t ih =>
    have hc : p c = true := h c (List.mem_cons_self _ _)
    have ht := ih fun d hd => h d (List.mem_cons_of_mem _ hd)
    simp [List.takeWhile_cons, List.dropWhile_cons, hc, ht.1, ht.2]

theorem rejoinGo_nil (n : ℕ) (prev : Option Char) : rejoinGo n prev [] = [] := by
  cases n <;> simp [rejoinGo, rejoinTry]

/-- Claim C10, amended: the broken-word pass of `clean_pdf_text` merges
three whitespace-separated tokens into one word exactly when the first
two tokens are single ASCII letters and the third is a run of at least
two letters (the pass is applied once, left to right, and is not
recursive); here the positive direction for a whole-string instance. -/
theorem C10_rejoin_merges_single_letters (a b : Char) (w : List Char)
    (ha : asciiAlpha a = true) (hb : asciiAlpha b = true)
    (hw2 : 2 ≤ w.length) (hww : ∀ c ∈ w, asciiAlpha c = true) :
    rejoinBrokenWords (String.mk (a :: ' ' :: b :: ' ' :: w)) =
      String.mk (a :: b :: w) := by
  match w, hw2 with
  | c1 :: w1, hw2' =>
  have hc1 : asciiAlpha c1 = true := hww c1 (List.mem_cons_self _ _)
  have hsp : pyIsSpace ' ' = true := rfl
  have hbs : pyIsSpace b = false := alpha_not_space b hb
  have hc1s : pyIsSpace c1 = false := alpha_not_space c1 hc1
  have hspan := takeWhile_all asciiAlpha (c1 :: w1) hww
  have hdrop : List.dropWhile pyIsSpace (' ' :: c1 :: w1) = c1 :: w1 := by
    simp [List.dropWhile_cons, hsp, hc1s]
  have htry : rejoinTry none (a :: ' ' :: b :: ' ' :: c1 :: w1) =
      some (a :: b :: c1 :: w1, []) := by
    simp only [rejoinTry, ha, hb, hsp, hbs, hc1s, List.takeWhile_cons,
      List.dropWhile_cons, if_true, if_false, Bool.true_and, Bool.and_true,
      List.isEmpty_cons, hdrop, hspan.1, hspan.2]
    simp [hdrop, hspan.1, hspan.2, hb, hsp, hww, hw2']
    intro hnil
    subst hnil
    simp at hw2'
  have hstep : ∀ (n : ℕ) (prev : Option Char) (cs : List Char),
      rejoinGo (n + 1) prev cs =
        (match rejoinTry prev cs with
          | some (repl, rem) => repl ++ rejoinGo n repl.getLast? rem
          | none => match cs with
            | [] => []
            | c :: t => c :: rejoinGo n (some c) t) :=
    fun _ _ _ => rfl
  have hlen : (a :: ' ' :: b :: ' ' :: c1 :: w1).length = (w1.length + 4) + 1 := by
    simp only [List.length_cons]
  show String.mk (rejoinGo (a :: ' ' :: b :: ' ' :: c1 :: w1).length none
      (a :: ' ' :: b :: ' ' :: c1 :: w1)) = _
  rw [hlen, hstep, htry]
  show String.mk ((a :: b :: c1 :: w1) ++
      rejoinGo (w1.length + 4) (a :: b :: c1 :: w1).getLast? []) = _
  rw [rejoinGo_nil]
  simp

/-- Witness for the amended C10 theorem: `"d a ta"` is merged to
`"data"`. -/
theorem C10_rejoin_merges_witness :
    rejoinBrokenWords (String.mk ('d' :: ' ' :: 'a' :: ' ' :: ['t', 'a'])) =
      String.mk ('d' :: 'a' :: ['t', 'a']) :=
  C10_rejoin_merges_single_letters 'd' 'a' ['t', 'a'] (by decide) (by decide)
    (by decide) (by decide)

/-! ### ClaimExtractor: skills (`services/resume_parser.py`,
`extract_skills`, `extract_additional_skills_from_achievements`, and the
skills field of `extract_information`) -/

/-- The fixed `skill_keywords` vocabulary (in source order; the keyword
scan preserves this order). -/
def skillKeywords : List String :=
  ["Python", "JavaScript", "Java", "C++", "C#", "Ruby", "PHP", "Swift",
   "Kotlin", "React", "Angular", "Vue", "Node.js", "Express", "Django",
   "Flask", "Spring", "TensorFlow", "PyTorch", "Machine Learning",
   "Deep Learning", "AI", "NLP", "SQL", "MySQL", "PostgreSQL", "MongoDB",
   "Firebase", "AWS", "Azure", "GCP", "Docker", "Kubernetes", "CI/CD",
   "Git", "GitHub", "DevOps", "Agile", "Scrum", "HTML", "CSS", "SASS",
   "LESS", "Bootstrap", "Tailwind", "Material UI", "REST API", "GraphQL",
   "Microservices", "Serverless", "Linux", "Unix", "Data Analysis",
   "Data Science", "Big Data", "Hadoop", "Spark", "Tableau", "Power BI",
   "Excel", "VBA", "R", "MATLAB", "SAS", "SPSS", "Stata", "TypeScript",
   "Go", "Rust", "Scala", "Perl", "COBOL", "Fortran", "jQuery", "Redux",
   "Next.js", "Gatsby", "Svelte", "Ember", "Backbone", "Laravel",
   "CodeIgniter", "Symfony", "Rails", "Sinatra", "ASP.NET", "Pandas",
   "NumPy", "Scikit-learn", "Keras", "OpenCV", "NLTK", "SpaCy", "Redis",
   "Elasticsearch", "Cassandra", "DynamoDB", "Oracle", "SQLite", "Jenkins",
   "GitLab", "CircleCI", "Travis", "Ansible", "Terraform", "Vagrant",
   "Figma", "Sketch", "Adobe", "Photoshop", "Illustrator", "InDesign",
   "XD", "Project Management", "Leadership", "Communication",
   "Problem Solving", "Teamwork", "C", "Solidity", "VS Code", "Canva",
   "Notion", "Public Speaking", "Community Management"]

/-- A heading-anchored section pattern
`HEAD (\s*)?[:\n]\s* (.*?) (?=\n\s*TERM\s*[:\n]|$)` (with `re.DOTALL`):
`heads` and `terms` are the alternation branches in engine order, each a
word list joined by `\s+`; `sepTight` distinguishes the source patterns
written `HEAD[:\n]` from those written `HEAD\s*[:\n]`. -/
structure SectionPat where
  heads : List (List String)
  sepTight : Bool
  terms : List (List String)

/-- Match an alternation branch (words joined by `\s+`), case-insensitively;
returns the remainder.  A `"&"` word stands for the source's `\s*&\s*`
join, whose surrounding whitespace may be empty. -/
def matchWordsCI : List String → List Char → Option (List Char)
  | [], cs => some cs
  | [w], cs => matchLitCI w.toList cs
  | w :: rest, cs =>
    match matchLitCI w.toList cs with
    | none => none
    | some r =>
      let flexible := w = "&" ||
        (match rest.head? with | some w2 => w2 = "&" | none => false)
      if flexible then matchWordsCI rest (r.dropWhile pyIsSpace)
      else if (r.takeWhile pyIsSpace).isEmpty then none
      else matchWordsCI rest (r.dropWhile pyIsSpace)

/-- The separator after a section heading: `[:\n]\s*` when `tight`,
`\s*[:\n]\s*` otherwise (greedy `\s*`, so a `:` directly after the
whitespace run is preferred; otherwise a newline inside the run serves
as the separator).  Returns the capture start. -/
def afterHeadSep (tight : Bool) (cs : List Char) : Option (List Char) :=
  if tight then
    match cs with
    | ':' :: rest => some (rest.dropWhile pyIsSpace)
    | '\n' :: rest => some (rest.dropWhile pyIsSpace)
    | _ => none
  else
    let run := cs.takeWhile pyIsSpace
    let rest := cs.dropWhile pyIsSpace
    match rest with
    | ':' :: r2 => some (r2.dropWhile pyIsSpace)
    | _ => if run.any (· = '\n') then some rest else none

/-- The capture-ending lookahead `(?=\n\s*(?:TERMS)\s*[:\n])`. -/
def termLookaheadAt (terms : List (List String)) (cs : List Char) : Bool :=
  match cs with
  | '\n' :: rest =>
    let after := rest.dropWhile pyIsSpace
    terms.any fun alt =>
      match matchWordsCI alt after with
      | none => false
      | some rem =>
        (rem.takeWhile pyIsSpace).any (· = '\n') ||
          (rem.dropWhile pyIsSpace).head? = some ':'
  | _ => false

/-- `$` without `re.MULTILINE`: end of string, or just before a final
newline. -/
def dollarAt (cs : List Char) : Bool :=
  cs.isEmpty || cs = ['\n']

/-- The lazy capture `(.*?)`: extend until the terminator lookahead or
`$` matches.  Returns the capture and the remainder (the match end). -/
def scanCapture (terms : List (List String)) :
    ℕ → List Char → List Char → List Char × List Char
  | 0, cs, acc => (acc.reverse, cs)
  | n + 1, cs, acc =>
    if termLookaheadAt terms cs || dollarAt cs then (acc.reverse, cs)
    else
      match cs with
      | [] => (acc.reverse, [])
      | c :: t => scanCapture terms n t (c :: acc)

/-- `re.findall` for a section pattern: leftmost matches, scanning
resuming at each match end. -/
def findSectionsGo (pat : SectionPat) : ℕ → List Char → List (List Char)
  | 0, _ => []
  | n + 1, cs =>
    let headMatch := pat.heads.foldl
      (fun acc alt =>
        match acc with
        | some r => some r
        | none => (matchWordsCI alt cs).bind (afterHeadSep pat.sepTight))
      none
    match headMatch with
    | some capStart =>
      let (cap, rest) := scanCapture pat.terms capStart.length capStart []
      cap :: findSectionsGo pat n rest
    | none =>
      match cs with
      | [] => []
      | _ :: t => findSectionsGo pat n t

def findSections (pat : SectionPat) (text : String) : List String :=
  (findSectionsGo pat (text.toList.length + 1) text.toList).map String.mk

/-- The big terminator alternation shared by several skill-section
patterns. -/
def bigTerms : List (List String) :=
  [["projects"], ["project"], ["experience"], ["education"],
   ["work", "experience"], ["employment"], ["achievements"], ["achievement"],
   ["awards"], ["award"], ["certifications"], ["certification"],
   ["references"], ["reference"], ["contact"], ["summary"], ["objective"],
   ["languages"], ["language"], ["interests"], ["interest"], ["hobbies"],
   ["hobbie"], ["extracurricular"], ["activities"], ["volunteer"],
   ["leadership"], ["social", "handles"], ["social", "handle"]]

/-- The eight `skill_section_patterns`, in source order. -/
def skillSectionPats : List SectionPat :=
  [⟨[["technical", "skills"], ["technical", "skill"], ["skills"], ["skill"]],
    false, bigTerms⟩,
   ⟨[["programming"]], false,
    [["tools"], ["tool"], ["soft", "skills"], ["soft", "skill"],
     ["languages"], ["language"], ["projects"], ["project"], ["experience"],
     ["education"]]⟩,
   ⟨[["tools"], ["tool"]], false,
    [["soft", "skills"], ["soft", "skill"], ["languages"], ["language"],
     ["projects"], ["project"], ["experience"], ["education"],
     ["social", "handles"], ["social", "handle"]]⟩,
   ⟨[["soft", "skills"], ["soft", "skill"]], false,
    [["languages"], ["language"], ["projects"], ["project"], ["experience"],
     ["education"], ["social", "handles"], ["social", "handle"]]⟩,
   ⟨[["competencies"]], true, bigTerms⟩,
   ⟨[["technologies"]], true, bigTerms⟩,
   ⟨[["programming", "languages"], ["programming", "language"]], false,
    bigTerms⟩,
   ⟨[["tools", "and", "technologies"], ["tool", "and", "technologies"]],
    true, bigTerms⟩]

/-- The separator character class of the token split
`re.split(r'[,•|•\n\t;/\\·▪▫◦‣⁃]+', ...)` — written here with the exact
(double-encoded) characters the committed source contains. -/
def skillSepChar (c : Char) : Bool :=
  c = ',' || c = 'â' || c = '€' || c = '¢' || c = '|' ||
  c = '\n' || c = '\t' || c = ';' || c = '/' || c = '\\' || c = 'Â' ||
  c = '·' || c = '–' || c = 'ª' || c = '«' ||
  c = '—' || c = '¦' || c = '£' || c = 'ƒ'

/-- `re.split(r'[CLASS]+', ...)`: split on maximal separator runs. -/
def splitRunsGo (p : Char → Bool) : ℕ → List Char → List Char → List (List Char)
  | 0, _, acc => [acc.reverse]
  | _ + 1, [], acc => [acc.reverse]
  | n + 1, c :: t, acc =>
    if p c then acc.reverse :: splitRunsGo p n (t.dropWhile p) []
    else splitRunsGo p n t (c :: acc)

def splitSkillTokens (cs : List Char) : List (List Char) :=
  splitRunsGo skillSepChar cs.length cs []

/-- `re.sub(r'^[^\w]+|[^\w]+$', '', skill.strip())` followed by
`.strip()`. -/
def trimNonWord (s : String) : String :=
  let t := pyStripList s.toList
  let t := t.dropWhile fun c => !pyIsWord c
  let t := (t.reverse.dropWhile fun c => !pyIsWord c).reverse
  pyStrip (String.mk t)

def skillStopWords : List String :=
  ["and", "or", "with", "using", "including", "etc", "the", "of", "in",
   "languages", "english", "hindi", "skills", "programming", "tools", "soft"]

def projectishWords : List String :=
  ["platform", "app", "website", "portal", "system", "dashboard", "service",
   "roots", "questfi", "auditor", "network", "data sharing", "monetization",
   "bounty", "verification", "reality score"]

def dashToolWords : List String :=
  ["platform", "app", "website", "system", "tool"]

def socialLits : List String :=
  ["linkedin.com", "github.com", "twitter.com", "vishvjeet", "tanwar",
   "vishvjeettanwar", "1623", "gmail.com"]

def urlLits : List String :=
  ["http://", "https://", "www.", ".com", ".org", ".net", "[link]"]

def softSkillAllow : List String :=
  ["leadership", "public speaking", "community management",
   "problem solving", "teamwork", "communication"]

def techStemWords : List String :=
  ["programming", "development", "design", "analysis", "management",
   "testing", "deployment", "script", "code"]

/-- `re.search(r'-.*(?:platform|app|website|system|tool)', ...)`: a hyphen
followed (on the same line, as `.` does not cross newlines) by one of the
tool words. -/
def dashThenKeyword : List Char → Bool
  | [] => false
  | c :: t =>
    (c = '-' && dashToolWords.any fun k =>
      listContainsSub k.toList (t.takeWhile (· ≠ '\n'))) ||
    dashThenKeyword t

/-- `re.search(r'@\w+', ...)`. -/
def atFollowedByWord : List Char → Bool
  | [] => false
  | c :: t =>
    (c = '@' && (match t.head? with | none => false | some d => pyIsWord d)) ||
    atFollowedByWord t

/-- `re.search(LABEL + r'\s*-\s*https', ...)`. -/
def lblDashHttps (lbl : List String) : List Char → Bool
  | [] => false
  | c :: t =>
    (match matchWordsCI lbl (c :: t) with
      | none => false
      | some r =>
        match r.dropWhile pyIsSpace with
        | '-' :: r2 => "https".toList.isPrefixOf (r2.dropWhile pyIsSpace)
        | _ => false) ||
    lblDashHttps lbl t

/-- `re.search(r'\d{4}', ...)`. -/
def has4Digits : List Char → Bool
  | [] => false
  | c :: t =>
    (asciiDigit c &&
      (match t with
        | d2 :: d3 :: d4 :: _ => asciiDigit d2 && asciiDigit d3 && asciiDigit d4
        | _ => false)) ||
    has4Digits t

/-- The strict token filter of the skills-section pass
(`extract_skills`, lines 452-470 of the source). -/
def tokenAccepted (skill : String) : Bool :=
  let sl := pyLower skill
  !(skillStopWords.contains sl) &&
  !(projectishWords.any fun k => strContainsSub sl k) &&
  !(strContainsSub sl emDashSeq || strContainsSub sl enDashSeq ||
      dashThenKeyword sl.toList) &&
  !(atFollowedByWord sl.toList || socialLits.any fun k => strContainsSub sl k) &&
  !(urlLits.any (fun k => strContainsSub sl k) ||
      lblDashHttps ["github"] sl.toList || lblDashHttps ["twitter"] sl.toList ||
      lblDashHttps ["linkedin"] sl.toList) &&
  decide (skill.length < 30) &&
  !(has4Digits sl.toList || kwSearchCI "unverified" sl ||
      kwSearchCI "verified" sl) &&
  (skillKeywords.contains skill || softSkillAllow.contains sl ||
    techStemWords.any fun t => strContainsSub sl t)

/-- The section-token pass of `extract_skills`: every capture of every
section pattern is split into tokens, and each accepted token not already
present is appended. -/
def sectionTokensPass (text : String) (found0 : List String) : List String :=
  skillSectionPats.foldl
    (fun found pat =>
      (findSections pat text).foldl
        (fun found cap =>
          (splitSkillTokens (pyStrip cap).toList).foldl
            (fun found tok0 =>
              let skill := trimNonWord (String.mk tok0)
              if skill ≠ "" && decide (skill.length > 1) && !(found.contains skill)
              then if tokenAccepted skill then found ++ [skill] else found
              else found)
            found)
        found)
    found0

/-- The case-insensitive, order-preserving, first-occurrence-wins
deduplication ending `extract_skills`. -/
def dedupCIGo : List String → List String → List String
  | [], _ => []
  | s :: t, seen =>
    if pyLower s ∈ seen then dedupCIGo t seen
    else s :: dedupCIGo t (pyLower s :: seen)

def dedupCI (l : List String) : List String := dedupCIGo l []

/-- The pre-deduplication skill list of `extract_skills`: the fixed
vocabulary scanned with whole-word case-insensitive matching (in
vocabulary order), then tokens from dedicated skills sections. -/
def rawFoundSkills (text : String) : List String :=
  sectionTokensPass text (skillKeywords.filter fun k => kwSearchCI k text)

/-- `extract_skills`. -/
def extract_skills (text : String) : List String :=
  dedupCI (rawFoundSkills text)

/-- The `skill_indicators` table of
`extract_additional_skills_from_achievements`. -/
def skillIndicators : List (String × List String) :=
  [("leadership", ["president", "captain", "leader", "head", "coordinator", "organizer", "manager"]),
   ("teamwork", ["team", "group", "collaboration", "cooperative", "member"]),
   ("communication", ["presentation", "speaking", "debate", "public speaking", "communication"]),
   ("project management", ["organized", "planned", "coordinated", "managed", "executed"]),
   ("problem solving", ["solved", "resolved", "troubleshooting", "analysis", "strategy"]),
   ("time management", ["deadline", "schedule", "multitasking", "prioritize"]),
   ("creativity", ["creative", "innovative", "design", "artistic", "original"]),
   ("analytical thinking", ["analysis", "research", "data", "statistical", "analytical"]),
   ("adaptability", ["adapted", "flexible", "versatile", "diverse"]),
   ("mentoring", ["mentor", "tutor", "teach", "guide", "coach"])]

/-- Python `str.title()`. -/
def pyTitleGo : Bool → List Char → List Char
  | _, [] => []
  | prevAlpha, c :: t =>
    if asciiAlpha c then
      (if prevAlpha then pyLowerChar c else pyUpperChar c) :: pyTitleGo true t
    else c :: pyTitleGo false t

def pyTitle (s : String) : String := String.mk (pyTitleGo false s.toList)

/-- The two achievement/extracurricular section patterns. -/
def achievementPats : List SectionPat :=
  [⟨[["achievements"], ["achievement"], ["awards"], ["award"], ["honors"],
     ["honor"], ["recognition"]], false,
    [["skills"], ["skill"], ["experience"], ["education"], ["projects"],
     ["project"], ["work", "experience"], ["employment"], ["certifications"],
     ["certification"], ["references"], ["reference"], ["contact"],
     ["summary"], ["objective"], ["languages"], ["language"], ["interests"],
     ["interest"], ["hobbies"], ["hobbie"]]⟩,
   ⟨[["extracurricular"], ["activities"], ["volunteer"], ["leadership"],
     ["organizations"], ["organization"]], false,
    [["skills"], ["skill"], ["experience"], ["education"], ["projects"],
     ["project"], ["work", "experience"], ["employment"], ["achievements"],
     ["achievement"], ["awards"], ["award"], ["certifications"],
     ["certification"], ["references"], ["reference"], ["contact"],
     ["summary"], ["objective"], ["languages"], ["language"], ["interests"],
     ["interest"], ["hobbies"], ["hobbie"]]⟩]

/-- `extract_additional_skills_from_achievements` (note: the source's
`if skill not in additional_skills` membership test compares the
lowercase indicator key against the title-cased stored entries). -/
def extract_additional_skills_from_achievements (text : String) : List String :=
  achievementPats.foldl
    (fun acc pat =>
      (findSections pat text).foldl
        (fun acc cap =>
          let sect := pyLower (pyStrip cap)
          skillIndicators.foldl
            (fun acc kv =>
              if kv.2.any (fun ind => strContainsSub sect ind) then
                if kv.1 ∈ acc then acc else acc ++ [pyTitle kv.1]
              else acc)
            acc)
        acc)
    []

/-- The default skills `extract_information` injects when extraction
found none. -/
def default_skills : List String := ["Python", "Data Analysis", "Communication"]

/-- The skills field of `extract_information`: `extract_skills`, extended
by the achievement-derived skills and then passed through
`list(set(...))` (exact-equality deduplication with unspecified order —
modelled as a `Multiset`), with the default skills substituted when the
result is empty. -/
def extract_information_skills (text : String) : Multiset String :=
  let skills := extract_skills text
  let additional := extract_additional_skills_from_achievements text
  let merged : Multiset String :=
    if additional.isEmpty then (skills : Multiset String)
    else (skills ++ additional).toFinset.val
  if merged = 0 then (default_skills : Multiset String) else merged

/-- Claim C6, counterexample: on the skills section
`"Skills: Python, React, C, JavaScript"` the extracted list is not
`["Python", "React", "C", "JavaScript"]` — the fixed-vocabulary scan runs
first and emits the skills in vocabulary order, not section order. -/
theorem C6_counterexample :
    extract_skills "Skills: Python, React, C, JavaScript" ≠
      ["Python", "React", "C", "JavaScript"] := by
  decide

/-- Claim C6, amended: the section yields exactly the four skills Python,
React, C, JavaScript — no duplicates, no section-header leakage — but in
the vocabulary-scan order `["Python", "JavaScript", "React", "C"]`. -/
theorem C6_skills_vocabulary_order :
    extract_skills "Skills: Python, React, C, JavaScript" =
      ["Python", "JavaScript", "React", "C"] ∧
    (extract_skills "Skills: Python, React, C, JavaScript").Perm
      ["Python", "React", "C", "JavaScript"] := by
  constructor
  · decide
  · decide

/-- Claim C4, counterexample: on input text where claim extraction finds
zero skills (the empty text), the skills field does not stay empty — the
parser replaces it with the default list. -/
theorem C4_counterexample :
    extract_skills "" = [] ∧
    extract_information_skills "" = (default_skills : Multiset String) ∧
    (default_skills : Multiset String) ≠ 0 := by
  refine ⟨by decide, by decide, by decide⟩

/-- Claim C4, amended: zero skills found never raises an error (the
extractor is total), but the extracted skills field does not degrade to
the empty list: whenever both the skill scan and the achievement pass
find nothing, `extract_information` substitutes the default skills
`["Python", "Data Analysis", "Communication"]`. -/
theorem C4_zero_skills_defaulted (text : String)
    (h1 : extract_skills text = [])
    (h2 : extract_additional_skills_from_achievements text = []) :
    extract_information_skills text = (default_skills : Multiset String) := by
  simp [extract_information_skills, h1, h2]

/-- Witness for the amended C4 theorem at the empty text. -/
theorem C4_zero_skills_defaulted_witness :
    extract_information_skills "" = (default_skills : Multiset String) :=
  C4_zero_skills_defaulted "" (by decide) (by decide)

/-! ### ClaimExtractor: projects (`services/resume_parser.py`,
`fix_pdf_extraction_issues`, `extract_projects`, `parse_project_section`,
`extract_projects_from_full_text`) -/

def asciiLower (c : Char) : Bool := 'a' ≤ c && c ≤ 'z'

/-- The ordered replacement table of `fix_pdf_extraction_issues`. -/
def fixPdfFixes : List (String × String) :=
  [("Ques tfi", "Questfi"), ("Quest fi", "Questfi"), ("Que stfi", "Questfi"),
   ("Profile Audit or", "Profile Auditor"), ("Profile Audit", "Profile Auditor"),
   ("Data\nRoots", "Data Roots"), ("Data \nRoots", "Data Roots"),
   ("Data\n Roots", "Data Roots"),
   ("block chain", "blockchain"), ("Block chain", "Blockchain"),
   ("real ity", "reality"), ("Real ity", "Reality"),
   ("plat form", "platform"), ("Plat form", "Platform"),
   ("net work", "network"), ("Net work", "Network"),
   ("data base", "database"), ("Data base", "Database"),
   ("web site", "website"), ("Web site", "Website"),
   ("app lication", "application"), ("App lication", "Application"),
   ("ver ification", "verification"), ("Ver ification", "Verification"),
   ("monetiz ation", "monetization"), ("Monetiz ation", "Monetization"),
   ("decent ralized", "decentralized"), ("Decent ralized", "Decentralized"),
   ("shar ing", "sharing"), ("Shar ing", "Sharing")]

def prevNonWord : Option Char → Bool
  | none => true
  | some p => !pyIsWord p

def headNonWord (cs : List Char) : Bool :=
  match cs.head? with
  | none => true
  | some d => !pyIsWord d

/-- `re.sub(r'\b([A-Z])ues tfi\b', r'\1uestfi', ...)`. -/
def subQuesTfi1Go : ℕ → Option Char → List Char → List Char
  | 0, _, cs => cs
  | _ + 1, _, [] => []
  | n + 1, prev, c :: t =>
    if asciiUpper c && prevNonWord prev && "ues tfi".toList.isPrefixOf t &&
        headNonWord (t.drop 7) then
      (c :: "uestfi".toList) ++ subQuesTfi1Go n (some 'i') (t.drop 7)
    else c :: subQuesTfi1Go n (some c) t

/-- `re.sub(r'\bQues ([a-z]fi)\b', r'Quest\1', ...)`. -/
def subQuesTfi2Go : ℕ → Option Char → List Char → List Char
  | 0, _, cs => cs
  | _ + 1, _, [] => []
  | n + 1, prev, c :: t =>
    if c = 'Q' && prevNonWord prev && "ues ".toList.isPrefixOf t &&
        (match t.drop 4 with
          | x :: rest2 =>
            asciiLower x && "fi".toList.isPrefixOf rest2 &&
              headNonWord (rest2.drop 2)
          | [] => false) then
      match t.drop 4 with
      | x :: _ => ("Quest".toList ++ [x] ++ "fi".toList) ++
          subQuesTfi2Go n (some 'i') ((t.drop 4).drop 3)
      | [] => c :: subQuesTfi2Go n (some c) t
    else c :: subQuesTfi2Go n (some c) t

/-- One attempt of
`\b([A-Z][a-z]+)\s+([a-z]{2,})\b(?=\s+(?:[A-Z]|EM|-|$))` at the current
position; returns the replacement `\1\2` and the remainder (the lookahead
is not consumed). -/
def subCompoundTry (prev : Option Char) (cs : List Char) :
    Option (List Char × List Char) :=
  match cs with
  | [] => none
  | c :: t =>
    if asciiUpper c && prevNonWord prev then
      let g1 := t.takeWhile asciiLower
      let after1 := t.dropWhile asciiLower
      if g1.isEmpty then none
      else
        let ws := after1.takeWhile pyIsSpace
        let r2 := after1.dropWhile pyIsSpace
        if ws.isEmpty then none
        else
          let g2 := r2.takeWhile asciiLower
          let r3 := r2.dropWhile asciiLower
          if 2 ≤ g2.length && headNonWord r3 then
            let ws2 := r3.takeWhile pyIsSpace
            let r4 := r3.dropWhile pyIsSpace
            if !ws2.isEmpty &&
                (r4.isEmpty ||
                  (match r4.head? with
                    | some d => asciiUpper d || d = '-'
                    | none => false) ||
                  emDashSeq.toList.isPrefixOf r4) then
              some (c :: g1 ++ g2, r3)
            else none
          else none
    else none

def subCompoundGo : ℕ → Option Char → List Char → List Char
  | 0, _, cs => cs
  | _ + 1, _, [] => []
  | n + 1, prev, cs =>
    match subCompoundTry prev cs with
    | some (repl, rem) => repl ++ subCompoundGo n repl.getLast? rem
    | none =>
      match cs with
      | [] => []
      | c :: t => c :: subCompoundGo n (some c) t

/-- `fix_pdf_extraction_issues`. -/
def fix_pdf_extraction_issues (text0 : String) : String :=
  if text0 = "" then text0
  else
    let t := fixPdfFixes.foldl
      (fun t kv => if strContainsSub t kv.1 then pyReplace t kv.1 kv.2 else t)
      text0
    let t := String.mk (subQuesTfi1Go t.toList.length none t.toList)
    let t := String.mk (subQuesTfi2Go t.toList.length none t.toList)
    String.mk (subCompoundGo t.toList.length none t.toList)

/-- The three dash separators of `em_dash_patterns`: the canonical
em-dash sequence, the class `[-â€“]` (hyphen or one of the en-dash
sequence's characters), and a run of 3 or more whitespace characters. -/
inductive DashSep
  | em
  | hyph
  | sp3
deriving Repr, DecidableEq

/-- The name class `[A-Za-z0-9\s,-]`. -/
def dashNameClass (c : Char) : Bool :=
  asciiAlpha c || asciiDigit c || pyIsSpace c || c = ',' || c = '-'

/-- The hyphen-pattern separator class `[-â€“]`. -/
def hyphClassChar (c : Char) : Bool :=
  c = '-' || c = 'â' || c = '€' || c = '“'

/-- Match `\s*SEP\s*` (for `em`/`hyph`) or `\s{3,}\s*` (for `sp3`) at the
current position; returns the position after the separator. -/
def dashSepMatch (sep : DashSep) (cs : List Char) : Option (List Char) :=
  match sep with
  | .em =>
    let r := cs.dropWhile pyIsSpace
    if emDashSeq.toList.isPrefixOf r then
      some ((r.drop emDashSeq.toList.length).dropWhile pyIsSpace)
    else none
  | .hyph =>
    let r := cs.dropWhile pyIsSpace
    match r with
    | d :: r2 => if hyphClassChar d then some (r2.dropWhile pyIsSpace) else none
    | [] => none
  | .sp3 =>
    if 3 ≤ (cs.takeWhile pyIsSpace).length then some (cs.dropWhile pyIsSpace)
    else none

/-- The tail `\s*(?=\n|$)` after the optional bracket group and dot:
succeeds if the greedy whitespace run reaches the end of the string or
can stop just before a newline; returns the match end. -/
def finishWs (rem : List Char) : Option (List Char) :=
  let run := rem.takeWhile pyIsSpace
  let r4 := rem.dropWhile pyIsSpace
  if r4.isEmpty then some r4
  else
    let afterLast := run.reverse.takeWhile (· ≠ '\n')
    if afterLast.length = run.length then none
    else some (run.drop (run.length - afterLast.length - 1) ++ r4)

/-- The tail `\.?\s*(?=\n|$)`. -/
def finishDot (rem : List Char) : Option (List Char) :=
  match rem with
  | '.' :: r2 =>
    match finishWs r2 with
    | some x => some x
    | none => finishWs rem
  | _ => finishWs rem

/-- The tail `(?:\s*\[.*?\])?\.?\s*(?=\n|$)` (the optional bracket group
is taken greedily when possible). -/
def dashTailMatch (rem : List Char) : Option (List Char) :=
  let viaBracket :=
    let r := rem.dropWhile pyIsSpace
    match r with
    | '[' :: inner =>
      let upto := inner.takeWhile fun c => !(c = ']' || c = '\n')
      match inner.drop upto.length with
      | ']' :: r2 => finishDot r2
      | _ => none
    | _ => none
  match viaBracket with
  | some x => some x
  | none => finishDot rem

/-- The lazy description group `([^[\n]+?)` followed by the tail: extend
one character at a time until the tail matches. -/
def descLazyGo : ℕ → List Char → List Char → Option (List Char × List Char)
  | 0, _, _ => none
  | n + 1, acc, rem =>
    match rem with
    | [] => none
    | c :: t =>
      if c = '[' || c = '\n' then none
      else
        match dashTailMatch t with
        | some rest => some ((c :: acc).reverse, rest)
        | none => descLazyGo n (c :: acc) t

/-- Try the name group with backtracking: greedy `{2,50}` run of class
characters, longest tail length first, such that separator, description
and tail all match. -/
def dashNameTry (sep : DashSep) (c : Char) (t : List Char) :
    ℕ → Option ((String × String) × List Char)
  | 0 => none
  | n + 1 =>
    let tryLen := n + 1
    if 2 ≤ tryLen then
      let nameTail := t.take tryLen
      let rest := t.drop tryLen
      let attempt :=
        match dashSepMatch sep rest with
        | none => none
        | some afterSep =>
          match descLazyGo (afterSep.length + 1) [] afterSep with
          | none => none
          | some (desc, matchEnd) =>
            some ((String.mk (c :: nameTail), String.mk desc), matchEnd)
      match attempt with
      | some r => some r
      | none => dashNameTry sep c t n
    else none

/-- One attempt of a full dash pattern at a line start. -/
def tryDashMatch (sep : DashSep) (cs : List Char) :
    Option ((String × String) × List Char) :=
  let afterWs := cs.dropWhile pyIsSpace
  match afterWs with
  | [] => none
  | c :: t =>
    if asciiUpper c then
      let maxLen := min (t.takeWhile dashNameClass).length 50
      dashNameTry sep c t maxLen
    else none

/-- `re.findall(pattern, text, re.MULTILINE)` for one dash pattern:
matches may begin at line starts (the `(?:^|\n)` prefix), scanning
resumes at each match end. -/
def dashFindGo (sep : DashSep) : ℕ → Bool → List Char → List (String × String)
  | 0, _, _ => []
  | n + 1, atStart, cs =>
    if atStart then
      match tryDashMatch sep cs with
      | some (pair, rest) => pair :: dashFindGo sep n false rest
      | none =>
        match cs with
        | [] => []
        | c :: t => dashFindGo sep n (c = '\n') t
    else
      match cs with
      | [] => []
      | c :: t => dashFindGo sep n (c = '\n') t

def dashFindAll (sep : DashSep) (text : List Char) : List (String × String) :=
  dashFindGo sep (text.length + 1) true text

/-- `re.sub(r'\[.*?\]', '', ...)`. -/
def removeBracketsGo : ℕ → List Char → List Char
  | 0, cs => cs
  | _ + 1, [] => []
  | n + 1, c :: t =>
    if c = '[' then
      let inner := t.takeWhile fun d => !(d = ']' || d = '\n')
      match t.drop inner.length with
      | ']' :: r2 => removeBracketsGo n r2
      | _ => c :: removeBracketsGo n t
    else c :: removeBracketsGo n t

def removeBrackets (s : String) : String :=
  String.mk (removeBracketsGo s.toList.length s.toList)

def dashSectionHeaderWords : List String :=
  ["PROJECTS", "EXPERIENCE", "EDUCATION", "SKILLS", "ACHIEVEMENTS",
   "INTERNSHIP", "AWARDS"]

def achievementRejectKws : List String :=
  ["prize", "award", "hackathon", "competition", "winner", "achievement",
   "certificate", "honor", "built a blockchain", "engaged in a national",
   "demonstrating problem-solving", "3rd prize", "30th position",
   "completed a 21", "algohour", "regional hackathon"]

def socialRejectKws : List String :=
  ["twitter", "gmail", "linkedin", "github", "email", "phone", ".com", "@",
   "www.", "http", "https"]

def experienceRejectKws : List String :=
  ["intern", "internship", "remote", "present", "hackquest", "offscript",
   "advocate", "building and managing", "promoting web3"]

def contextRejectKws : List String :=
  ["achievements", "extra-curricular", "hackathon", "competition", "prize"]

def projectFlavourKws : List String :=
  ["platform", "app", "website", "system", "tool", "network", "blockchain",
   "data", "bounty", "verification", "auditor", "sharing", "monetization"]

def dashExclNameKws : List String :=
  ["achievements", "awards", "honors", "experience", "education", "skills",
   "certifications", "contact", "summary", "languages", "interests"]

def dashNameStopWords : List String :=
  ["and", "or", "the", "of", "in", "at", "on", "for"]

/-- Python `name[0].isupper()` on the names we meet (ASCII). -/
def headIsUpper (s : String) : Bool :=
  match s.toList.head? with
  | some c => asciiUpper c
  | none => false

/-- The achievements-context check: reject when the 200 characters before
the first occurrence of the name mention achievement context (only
applied when the name occurs at a positive offset). -/
def contextBad (text : List Char) (name : String) : Bool :=
  match pyFindSub text name.toList with
  | none => false
  | some 0 => false
  | some pos =>
    let preceding := (pyWindowBefore text pos).map pyLowerChar
    contextRejectKws.any fun k => listContainsSub k.toList preceding

/-- The final validation of a stage-1 dash match. -/
def validDashProject (name desc : String) : Bool :=
  let combined := pyLower (name ++ " " ++ desc)
  3 ≤ name.length && name.length ≤ 60 && headIsUpper name &&
  !(dashExclNameKws.any fun k => strContainsSub (pyLower name) k) &&
  ((projectFlavourKws.any fun k => strContainsSub combined k) ||
    ((pySplitWs name).length ≤ 4 &&
      !(dashNameStopWords.any fun w => strContainsSub (pyLower name) w)))

/-- The stage-1 validation loop over the collected dash matches. -/
def projectStage1 (text : List Char) (ms : List (String × String)) :
    List (String × String) :=
  ms.foldl
    (fun projects m =>
      let project_name := pyStrip m.1
      let project_desc := pyStrip m.2
      if dashSectionHeaderWords.any (fun h =>
          strContainsSub (pyUpper project_name) h) then projects
      else
        let combined := pyLower (project_name ++ " " ++ project_desc)
        if achievementRejectKws.any (fun k => strContainsSub combined k) then
          projects
        else if socialRejectKws.any (fun k => strContainsSub combined k) then
          projects
        else if experienceRejectKws.any (fun k => strContainsSub combined k) then
          projects
        else if contextBad text project_name then projects
        else if validDashProject project_name project_desc then
          projects ++ [(project_name, project_desc)]
        else projects)
    []

def listFirstSome (f : α → Option β) : List α → Option β
  | [] => none
  | a :: t =>
    match f a with
    | some b => some b
    | none => listFirstSome f t

def strStartsWith (s pre : String) : Bool :=
  pre.toList.isPrefixOf s.toList

/-- `re.search` for the month-year pattern
`\b(?:january|...|dec)\s+\d{4}\b`. -/
def monthNames : List String :=
  ["january", "february", "march", "april", "may", "june", "july", "august",
   "september", "october", "november", "december", "jan", "feb", "mar",
   "apr", "may", "jun", "jul", "aug", "sep", "oct", "nov", "dec"]

def monthYearGo : Option Char → List Char → Bool
  | _, [] => false
  | prev, c :: t =>
    (prevNonWord prev && monthNames.any fun m =>
      match matchLitCI m.toList (c :: t) with
      | none => false
      | some r =>
        !(r.takeWhile pyIsSpace).isEmpty &&
        (match r.dropWhile pyIsSpace with
          | d1 :: d2 :: d3 :: d4 :: rest =>
            asciiDigit d1 && asciiDigit d2 && asciiDigit d3 && asciiDigit d4 &&
              headNonWord rest
          | _ => false)) ||
    monthYearGo (some c) t

def monthYearIn (s : String) : Bool := monthYearGo none s.toList

/-! #### `parse_project_section` -/

def ppsSkipWords : List String :=
  ["remote", "on-site", "hybrid", "freelance", "contract", "full-time",
   "part-time"]

def ppsVerbs1 : List String :=
  ["developed", "created", "built", "implemented", "designed", "used",
   "worked"]

def ppsExclA : List String :=
  ["achievements", "achievement", "extra", "extracurricular", "activities",
   "awards", "honors", "experience", "education", "skills", "certifications"]

def ppsBulletVerbs : List String :=
  ["developed", "created", "built", "implemented", "designed", "used",
   "worked", "integrated", "deployed", "received", "awarded", "achieved",
   "won", "earned", "certified", "completed", "graduated", "participated",
   "attended", "volunteered"]

def ppsProjTypeKws : List String :=
  ["app", "website", "system", "platform", "tool", "dashboard", "api",
   "service", "portal", "application", "project", "software", "game",
   "simulator"]

def ppsAchKws2 : List String :=
  ["award", "achievement", "certificate", "certification", "degree",
   "scholarship", "honor", "recognition", "winner", "prize", "distinction",
   "gpa", "cgpa", "grade", "score", "rank", "experience", "extra",
   "extracurricular", "activities"]

def ppsStandaloneVerbs : List String :=
  ["developed", "created", "built", "implemented", "designed", "used",
   "worked", "integrated", "deployed", "received", "awarded", "achieved",
   "won", "earned", "certified", "graduated", "completed", "participated",
   "volunteered", "organized", "led", "managed", "coordinated"]

def ppsStandaloneStop : List String :=
  ["award", "achievement", "certificate", "certification", "degree",
   "scholarship", "honor", "recognition", "winner", "prize", "distinction",
   "club", "society", "team", "captain", "president", "member", "volunteer",
   "community", "event", "competition", "contest", "tournament", "league",
   "association", "achievements", "extra", "extracurricular", "activities",
   "experience", "education", "skills"]

def ppsHeaderExact : List String :=
  ["achievements", "achievements & extra", "extracurricular", "activities",
   "experience", "education", "skills", "awards", "honors"]

/-- Pattern 0 of `parse_project_section`:
`^([^EM\n]+?)\s*EM\s*([^[\n]+?)(?:\s*\[.*?\])?\.?\s*$` (re.match on one
line).  The lazy name is the text before the first em-dash sequence with
its trailing whitespace absorbed by `\s*`. -/
def ppsEmMatch (line : List Char) : Option (String × String) :=
  let pre := line.takeWhile fun c => !(c = 'â' || c = '€' || c = '”' || c = '\n')
  let rest := line.drop pre.length
  if emDashSeq.toList.isPrefixOf rest then
    let nameChars := (pre.reverse.dropWhile pyIsSpace).reverse
    if nameChars.isEmpty then none
    else
      let afterSep := (rest.drop emDashSeq.toList.length).dropWhile pyIsSpace
      match descLazyGo (afterSep.length + 1) [] afterSep with
      | some (desc, matchEnd) =>
        if matchEnd.isEmpty then some (String.mk nameChars, String.mk desc)
        else none
      | none => none
  else none

def ppsEmValid (line : String) : Option (String × String) :=
  match ppsEmMatch line.toList with
  | none => none
  | some (nm0, ds0) =>
    let project_name := pyStrip (removeBrackets (pyStrip nm0))
    if 3 ≤ project_name.length && project_name.length ≤ 60 &&
        headIsUpper project_name &&
        !(ppsExclA.any fun k => strContainsSub (pyLower project_name) k) then
      some (project_name, pyStrip ds0)
    else none

/-- The name character class of patterns 1 and 2: `[^:â€¢\-*\n]`. -/
def ppsNameAllowed (c : Char) : Bool :=
  !(c = ':' || c = 'â' || c = '€' || c = '¢' || c = '-' || c = '*' || c = '\n')

/-- Pattern 1: `^([^:â€¢\-*\n]+?)[:\-]\s*(.*?)$`. -/
def ppsHeaderMatch (line : List Char) : Option (String × String) :=
  let pre := line.takeWhile ppsNameAllowed
  if pre.isEmpty then none
  else
    match line.drop pre.length with
    | c :: rest =>
      if c = ':' || c = '-' then
        some (String.mk pre, String.mk (rest.dropWhile pyIsSpace))
      else none
    | [] => none

def ppsHeaderValid (line : String) : Option (String × String) :=
  match ppsHeaderMatch line.toList with
  | none => none
  | some (nm0, ds0) =>
    let project_name := pyStrip (removeBrackets (pyStrip nm0))
    if 3 ≤ project_name.length && project_name.length ≤ 60 &&
        !(ppsVerbs1.any fun v => strStartsWith (pyLower project_name) v) &&
        headIsUpper project_name &&
        !(ppsExclA.any fun k => strContainsSub (pyLower project_name) k) &&
        !monthYearIn (pyLower project_name) then
      some (project_name, pyStrip ds0)
    else none

/-- Pattern 2: `^(?:\d+\.|\â€¢|\*|\-)\s*([^:â€¢\-*\n]+?)(?:[:\-]\s*(.*?))?$`. -/
def ppsBulletMatch (line : List Char) : Option (String × String) :=
  let afterPrefix : Option (List Char) :=
    let ds := line.takeWhile asciiDigit
    if !ds.isEmpty && (line.drop ds.length).head? = some '.' then
      some (line.drop (ds.length + 1))
    else if ("â€¢").toList.isPrefixOf line then some (line.drop 3)
    else
      match line with
      | '*' :: t => some t
      | '-' :: t => some t
      | _ => none
  match afterPrefix with
  | none => none
  | some body0 =>
    let body := body0.dropWhile pyIsSpace
    let pre := body.takeWhile ppsNameAllowed
    if pre.isEmpty then none
    else
      match body.drop pre.length with
      | [] => some (String.mk pre, "")
      | c :: rest =>
        if c = ':' || c = '-' then
          some (String.mk pre, String.mk (rest.dropWhile pyIsSpace))
        else none

def ppsBulletValid (line : String) : Option (String × String) :=
  match ppsBulletMatch line.toList with
  | none => none
  | some (nm0, ds0) =>
    let potential_name := pyStrip (removeBrackets (pyStrip nm0))
    if potential_name.length ≤ 60 &&
        !(ppsBulletVerbs.any fun v => strStartsWith (pyLower potential_name) v) &&
        headIsUpper potential_name &&
        ((ppsProjTypeKws.any fun k => strContainsSub (pyLower potential_name) k) &&
          !(ppsAchKws2.any fun k => strContainsSub (pyLower potential_name) k) &&
          !monthYearIn (pyLower potential_name)) then
      some (potential_name, pyStrip ds0)
    else none

/-- Pattern 3: standalone title-case lines. -/
def ppsStandaloneValid (line : String) : Option (String × String) :=
  let clean_line := pyStrip (removeBrackets line)
  if clean_line.length ≤ 60 && clean_line ≠ "" && headIsUpper clean_line &&
      !(ppsStandaloneVerbs.any fun v => strStartsWith (pyLower clean_line) v) &&
      ((ppsProjTypeKws.any fun k => strContainsSub (pyLower clean_line) k) ||
        ((pySplitWs clean_line).length ≤ 5 &&
          !(ppsStandaloneStop.any fun w => strContainsSub (pyLower clean_line) w))) &&
      !monthYearIn (pyLower clean_line) &&
      !(ppsHeaderExact.contains (pyStrip (pyLower clean_line))) then
    some (clean_line, "")
  else none

def pushCur (ps : List (String × String)) : Option (String × String) →
    List (String × String)
  | none => ps
  | some p => ps ++ [p]

/-- `parse_project_section`. -/
def parse_project_section (project_text : String) : List (String × String) :=
  let fin := (pySplitNl project_text).foldl
    (fun (st : List (String × String) × Option (String × String)) line0 =>
      let (projects, current) := st
      let line := pyStrip line0
      if line = "" then st
      else if ppsSkipWords.contains (pyLower line) then st
      else
        match ppsEmValid line with
        | some nd => (pushCur projects current, some nd)
        | none =>
        match ppsHeaderValid line with
        | some nd => (pushCur projects current, some nd)
        | none =>
        match ppsBulletValid line with
        | some nd => (pushCur projects current, some nd)
        | none =>
        match ppsStandaloneValid line with
        | some nd => (pushCur projects current, some nd)
        | none =>
          match current with
          | none => st
          | some cur =>
            let desc_text :=
              if ("â€¢").toList.isPrefixOf line.toList ||
                  strStartsWith line "-" || strStartsWith line "*" then
                pyStrip (String.mk (line.toList.drop 1))
              else line
            (projects,
             some (cur.1, if cur.2 = "" then desc_text else cur.2 ++ " " ++ desc_text)))
    ([], none)
  pushCur fin.1 fin.2

/-! #### The dedicated-PROJECTS-section processing inside
`extract_projects` -/

def achievementShortKws : List String :=
  ["prize", "award", "hackathon", "competition", "winner", "achievement",
   "certificate", "honor"]

def descActionWords : List String :=
  ["decentralized", "platform", "app", "application", "system", "tool",
   "verification", "generating", "blockchain", "network", "bounty"]

def joinSpace (ws : List String) : String := String.intercalate " " ws

/-- The split-point score of the in-section PDF-style parser. -/
def splitScore (name desc : String) : Int :=
  let nWords := pySplitWs name
  let descWords := pySplitWs (pyLower desc)
  (if nWords.all (fun w => headIsUpper w) then 2 else 0) +
  (if descActionWords.any (fun w => descWords.contains w) then 1 else 0) +
  (if nWords.length = 1 &&
      !(["questfi", "auditor", "platform"].contains (pyLower name)) then -1 else 0) +
  (if nWords.length = 2 then 1
   else if nWords.length = 1 && ["questfi"].contains (pyLower name) then 2
   else 0)

/-- The candidate-split argmax: best strictly-improving score among split
points `1 .. min(5, len(words)) - 1` with a 3–30 character name. -/
def bestSplit (words : List String) : Option (String × String) :=
  let res := ((List.range (min 5 words.length)).drop 1).foldl
    (fun (st : Int × Option (String × String)) sp =>
      let nm := joinSpace (words.take sp)
      let ds := joinSpace (words.drop sp)
      let sc := splitScore nm ds
      if sc > st.1 && 3 ≤ nm.length && nm.length ≤ 30 then (sc, some (nm, ds))
      else st)
    (0, none)
  res.2

/-- Processing of one dedicated-PROJECTS-section capture: the three dash
patterns, `parse_project_section`, and the PDF-style split parser, each
with its rejection filters and case-insensitive deduplication. -/
def sectionProcess (cap : String) (projects0 : List (String × String)) :
    List (String × String) :=
  let project_text := pyStrip cap
  let sMatches :=
    dashFindAll .em project_text.toList ++
    dashFindAll .hyph project_text.toList ++
    dashFindAll .sp3 project_text.toList
  let projects := sMatches.foldl
    (fun projects m =>
      let nm := pyStrip (removeBrackets (pyStrip m.1))
      let ds := pyStrip m.2
      let combined := pyLower (nm ++ " " ++ ds)
      if achievementShortKws.any (fun k => strContainsSub combined k) then projects
      else if achievementRejectKws.any (fun k => strContainsSub combined k) then projects
      else if socialRejectKws.any (fun k => strContainsSub combined k) then projects
      else if experienceRejectKws.any (fun k => strContainsSub combined k) then projects
      else if contextBad project_text.toList nm then projects
      else if nm ≠ "" && 3 ≤ nm.length then
        if (projects.map fun p => pyLower p.1).contains (pyLower nm) then projects
        else projects ++ [(nm, ds)]
      else projects)
    projects0
  let projects := (parse_project_section project_text).foldl
    (fun projects proj =>
      if (projects.map fun p => pyLower p.1).contains (pyLower proj.1) then projects
      else
        let combined := pyLower (proj.1 ++ " " ++ proj.2)
        if (achievementRejectKws ++ socialRejectKws ++ experienceRejectKws).any
            (fun k => strContainsSub combined k) then projects
        else projects ++ [proj])
    projects
  (pySplitNl project_text).foldl
    (fun projects line0 =>
      let line := pyStrip line0
      if line = "" then projects
      else
        let clean_line := pyStrip (removeBrackets line)
        if (projectFlavourKws.any fun k => strContainsSub (pyLower clean_line) k) &&
            !(strContainsSub clean_line emDashSeq) &&
            !(strContainsSub clean_line "-") then
          let words := pySplitWs clean_line
          if 3 ≤ words.length then
            match bestSplit words with
            | some (bn, bd) =>
              if headIsUpper bn &&
                  (projectFlavourKws.any fun k => strContainsSub (pyLower bd) k) then
                if (projects.map fun p => pyLower p.1).contains (pyLower bn) then
                  projects
                else projects ++ [(bn, bd)]
              else projects
            | none => projects
          else projects
        else projects)
    projects

/-! #### `extract_projects_from_full_text` -/

def ftSectionHeaders : List String :=
  ["skills", "experience", "education", "work experience", "employment",
   "achievements", "awards", "certifications", "references", "contact",
   "summary", "objective", "languages", "interests", "hobbies",
   "activities", "volunteer", "extracurricular", "leadership",
   "organizations"]

def ftExcl : List String :=
  ["achievements", "extra", "extracurricular", "activities", "experience",
   "education", "skills", "awards", "honors"]

def ftVerbs : List String :=
  ["developed", "created", "built", "implemented", "designed", "used",
   "worked", "responsible", "received", "awarded", "achieved", "won",
   "earned", "certified", "the ", "a ", "an "]

/-- `re.match(r'.*\(\d{3}\).*\d{4}', line)`. -/
def phoneLineGo : List Char → Bool
  | [] => false
  | c :: t =>
    (c = '(' &&
      (match t with
        | a :: b :: d :: ')' :: rest =>
          asciiDigit a && asciiDigit b && asciiDigit d && has4Digits rest
        | _ => false)) ||
    phoneLineGo t

def phoneLineMatch (line : String) : Bool := phoneLineGo line.toList

/-- `re.match(r'^[A-Z][a-z]+\s+[A-Z][a-z]+$', line)`. -/
def personNameLine (line : String) : Bool :=
  match line.toList with
  | [] => false
  | c :: t =>
    asciiUpper c &&
    (let g1 := t.takeWhile asciiLower
     let r := t.drop g1.length
     !g1.isEmpty &&
     (let ws := r.takeWhile pyIsSpace
      !ws.isEmpty &&
      (match r.drop ws.length with
        | d :: t2 =>
          asciiUpper d &&
          (let g2 := t2.takeWhile asciiLower
           !g2.isEmpty && (t2.drop g2.length).isEmpty)
        | [] => false)))

/-- Conservative full-text pattern 0: the anchored em-dash `re.match`. -/
def ftEmMatch (line : List Char) : Option (String × String) :=
  match line with
  | [] => none
  | c :: t =>
    if asciiUpper c then
      let maxLen := min (t.takeWhile dashNameClass).length 50
      (dashNameTry .em c t maxLen).map fun pr => pr.1
    else none

def ftP1TechKws : List String :=
  ["react", "node", "python", "javascript", "java", "angular", "vue",
   "django", "flask", "spring", "express", "mongodb", "sql", "aws",
   "docker", "kubernetes", "api", "framework", "library", "technology",
   "tech", "stack"]

/-- Conservative full-text pattern 1:
`(?i)^(NAME)\s*\([^)]+(?:TECH)[^)]*\)(?:\s|$)`. -/
def ftP1Try (c : Char) (t : List Char) : ℕ → Option String
  | 0 => none
  | n + 1 =>
    let tryLen := n + 1
    if 2 ≤ tryLen then
      let attempt :=
        match ((t.drop tryLen).dropWhile pyIsSpace) with
        | '(' :: inner =>
          let content := inner.takeWhile (· ≠ ')')
          match inner.drop content.length with
          | ')' :: r2 =>
            if (ftP1TechKws.any fun k =>
                  listContainsSub k.toList ((content.drop 1).map pyLowerChar)) &&
                (r2.isEmpty ||
                  (match r2.head? with
                    | some d => pyIsSpace d
                    | none => false)) then
              some (String.mk (c :: t.take tryLen))
            else none
          | _ => none
        | _ => none
      match attempt with
      | some r => some r
      | none => ftP1Try c t n
    else none

def ftP1Match (line : List Char) : Option String :=
  match line with
  | [] => none
  | c :: t =>
    if asciiAlpha c then
      ftP1Try c t (min (t.takeWhile dashNameClass).length 50)
    else none

/-- Conservative full-text pattern 2:
`(?i)(?:^|\n)(NAME{2,60}?)\s*(?:project|app|application)(?:\s|$|\.)`
(on a single line, hence anchored at position 0; lazy name). -/
def ftP2Iter (c : Char) (t : List Char) : ℕ → ℕ → Option String
  | _, 0 => none
  | l, n + 1 =>
    let rest := (t.drop l).dropWhile pyIsSpace
    let hit := ["project", "app", "application"].any fun kw =>
      match matchLitCI kw.toList rest with
      | none => false
      | some r =>
        r.isEmpty ||
          (match r.head? with
            | some d => pyIsSpace d || d = '.'
            | none => false)
    if hit then some (String.mk (c :: t.take l))
    else ftP2Iter c t (l + 1) n

def ftP2Match (line : List Char) : Option String :=
  match line with
  | [] => none
  | c :: t =>
    if asciiAlpha c then
      let maxRun := min (t.takeWhile dashNameClass).length 60
      if 2 ≤ maxRun then ftP2Iter c t 2 (maxRun - 1) else none
    else none

def ftP3Verbs : List String :=
  ["developed", "created", "built", "implemented", "designed"]

def ftP3Kws : List String :=
  ["project", "application", "app", "website", "system", "platform"]

/-- The pattern-3 name class `[A-Za-z0-9\s(),-]`. -/
def ftP3NameClass (c : Char) : Bool :=
  asciiAlpha c || asciiDigit c || pyIsSpace c || c = ',' || c = '-' ||
    c = '(' || c = ')'

def ftP3NameIter (c : Char) (t : List Char) : ℕ → ℕ → Option (String × List Char)
  | _, 0 => none
  | l, n + 1 =>
    let rest := t.drop l
    let ws := rest.takeWhile pyIsSpace
    let r2 := rest.dropWhile pyIsSpace
    let hit := listFirstSome
      (fun (kw : String) =>
        match matchLitCI kw.toList r2 with
        | none => none
        | some r =>
          match r.head? with
          | some d => if pyIsSpace d || d = '.' || d = ',' then some r.tail else none
          | none => none)
      ftP3Kws
    if !ws.isEmpty then
      match hit with
      | some after => some (String.mk (c :: t.take l), after)
      | none => ftP3NameIter c t (l + 1) n
    else ftP3NameIter c t (l + 1) n

/-- The lazy name (plus following keyword) of full-text pattern 3. -/
def ftP3Name (cs : List Char) : Option (String × List Char) :=
  match cs with
  | [] => none
  | c :: t =>
    if asciiAlpha c then
      let maxRun := min (t.takeWhile ftP3NameClass).length 50
      if 2 ≤ maxRun then ftP3NameIter c t 2 (maxRun - 1) else none
    else none

/-- One attempt of full-text pattern 3 at the current position:
`(?i)(?:developed|...)\s+(?:a\s+|an\s+|the\s+)?(NAME{2,50}?)\s+(?:KW)(?:\s|\.|\,)`. -/
def ftP3TryAt (cs : List Char) : Option (String × List Char) :=
  listFirstSome
    (fun (v : String) =>
      match matchLitCI v.toList cs with
      | none => none
      | some r =>
        if (r.takeWhile pyIsSpace).isEmpty then none
        else
          let r2 := r.dropWhile pyIsSpace
          let withArticle := listFirstSome
            (fun (a : String) =>
              match matchLitCI a.toList r2 with
              | none => none
              | some r3 =>
                if (r3.takeWhile pyIsSpace).isEmpty then none
                else ftP3Name (r3.dropWhile pyIsSpace))
            ["a", "an", "the"]
          match withArticle with
          | some nm => some nm
          | none => ftP3Name r2)
    ftP3Verbs

def ftP3Go : ℕ → List Char → List String
  | 0, _ => []
  | _ + 1, [] => []
  | n + 1, c :: t =>
    match ftP3TryAt (c :: t) with
    | some (nm, after) => nm :: ftP3Go n after
    | none => ftP3Go n t

def ftP3All (line : List Char) : List String :=
  ftP3Go (line.length + 1) line

/-- The validation and deduplication applied to full-text pattern 1–3
matches. -/
def ftValidateAppend (projects : List (String × String)) (nm0 : String) :
    List (String × String) :=
  let nm := pyStrip (removeBrackets (pyStrip nm0))
  if 3 ≤ nm.length && nm.length ≤ 80 &&
      !(ftVerbs.any fun v => strStartsWith (pyLower nm) v) &&
      headIsUpper nm &&
      !(ftExcl.any fun k => strContainsSub (pyLower nm) k) &&
      !monthYearIn (pyLower nm) then
    if (projects.map fun p => pyLower p.1).contains (pyLower nm) then projects
    else projects ++ [(nm, "")]
  else projects

/-- Apply the four conservative patterns to one line. -/
def ftApplyPats (line : String) (projects : List (String × String)) :
    List (String × String) :=
  let projects :=
    match ftEmMatch line.toList with
    | none => projects
    | some (nm0, ds0) =>
      let nm := pyStrip (removeBrackets (pyStrip nm0))
      if 3 ≤ nm.length && nm.length ≤ 80 && headIsUpper nm &&
          !(ftExcl.any fun k => strContainsSub (pyLower nm) k) &&
          !monthYearIn (pyLower nm) then
        if (projects.map fun p => pyLower p.1).contains (pyLower nm) then projects
        else projects ++ [(nm, pyStrip ds0)]
      else projects
  let p1 := match ftP1Match line.toList with | some n => [n] | none => []
  let p2 := match ftP2Match line.toList with | some n => [n] | none => []
  let p3 := ftP3All line.toList
  (p1 ++ p2 ++ p3).foldl ftValidateAppend projects

/-- `extract_projects_from_full_text`. -/
def extract_projects_from_full_text (text : String) : List (String × String) :=
  let fin := (pySplitNl text).foldl
    (fun (st : Bool × String × List (String × String)) line0 =>
      let (inProj, curSect, projects) := st
      let line := pyStrip line0
      if line = "" then st
      else
        let line_lower := pyStripPred (· = ':') (pyLower line)
        if ftSectionHeaders.contains line_lower then (false, line_lower, projects)
        else if strStartsWith line_lower "project" then (true, "projects", projects)
        else if !inProj && ftSectionHeaders.contains curSect then st
        else if strContainsSub line "@" || phoneLineMatch line then st
        else if personNameLine line then st
        else (inProj, curSect, ftApplyPats line projects))
    (false, "", [])
  fin.2.2

/-! #### The PDF-specific space-separated fallback and the final
cleanup -/

def pdfBadNameKws : List String :=
  ["prize", "award", "hackathon", "competition", "twitter", "gmail",
   "linkedin", "github", "intern", "experience"]

def pdfHeaderLine (line : String) : Bool :=
  pyLower line = "projects" || pyLower line = "project"

def pdfBreakLine (line : String) : Bool :=
  let l := (pyLower line).toList
  (["achievements", "achievement", "experience", "education", "skills",
    "internship", "languages", "language"].any fun w => w.toList.isPrefixOf l) ||
  (matchWordsCI ["social", "handles"] l).isSome ||
  (matchWordsCI ["social", "handle"] l).isSome

/-- The line-collection loop of the PDF-specific fallback (`break` on the
first post-PROJECTS section heading). -/
def pdfCollectLines : Bool → List String → List String
  | _, [] => []
  | inP, line0 :: rest =>
    let line := pyStrip line0
    if line = "" then pdfCollectLines inP rest
    else if pdfHeaderLine line then pdfCollectLines true rest
    else if inP && pdfBreakLine line then []
    else if inP && (projectFlavourKws.any fun k =>
        strContainsSub (pyLower line) k) then
      line :: pdfCollectLines inP rest
    else pdfCollectLines inP rest

def pdfTrySplits (projects : List (String × String)) (words : List String) :
    List (String × String) :=
  go ((List.range (min 4 words.length)).drop 1)
where
  go : List ℕ → List (String × String)
    | [] => projects
    | sp :: rest =>
      let nm := joinSpace (words.take sp)
      let ds := joinSpace (words.drop sp)
      if 3 ≤ nm.length && nm.length ≤ 30 && headIsUpper nm &&
          (projectFlavourKws.any fun k => strContainsSub (pyLower ds) k) &&
          !(pdfBadNameKws.any fun k => strContainsSub (pyLower nm) k) &&
          !((projects.map fun p => pyLower p.1).contains (pyLower nm)) then
        projects ++ [(nm, ds)]
      else go rest

def pdfFallback (text : String) : List (String × String) :=
  (pdfCollectLines false (pySplitNl text)).foldl
    (fun projects line =>
      let clean_line := pyStrip (removeBrackets line)
      let words := pySplitWs clean_line
      if 3 ≤ words.length then pdfTrySplits projects words else projects)
    []

/-- The bullet class `[-â€¢\s]` of the final name cleanup. -/
def bulletCleanChar (c : Char) : Bool :=
  c = '-' || c = 'â' || c = '€' || c = '¢' || pyIsSpace c

/-- The final cleanup and case-insensitive deduplication of
`extract_projects`. -/
def cleanupProjects : List (String × String) → List String →
    List (String × String)
  | [], _ => []
  | p :: rest, seen =>
    let name := pyStrip p.1
    let name := String.mk (name.toList.dropWhile bulletCleanChar)
    let name := String.mk
      ((name.toList.reverse.dropWhile fun c => c = ':' || pyIsSpace c).reverse)
    let name := pyStrip (removeBrackets name)
    if name ≠ "" ∧ pyLower name ∉ seen ∧ 3 < name.length then
      (name, p.2) :: cleanupProjects rest (pyLower name :: seen)
    else cleanupProjects rest seen

/-- The dedicated-PROJECTS-section pattern of `extract_projects`. -/
def projSectionPat : SectionPat :=
  ⟨[["projects"], ["project"]], false,
   [["achievements", "&", "extra"], ["achievement", "&", "extra"],
    ["achievements"], ["achievement"], ["awards"], ["award"], ["skills"],
    ["skill"], ["experience"], ["education"], ["work", "experience"],
    ["employment"], ["certifications"], ["certification"], ["references"],
    ["reference"], ["contact"], ["summary"], ["objective"], ["languages"],
    ["language"], ["interests"], ["interest"], ["hobbies"], ["hobbie"],
    ["extracurricular"], ["activities"], ["volunteer"], ["leadership"],
    ["social", "handles"], ["social", "handle"]]⟩

/-- `extract_projects`. -/
def extract_projects (text0 : String) : List (String × String) :=
  let text := fix_pdf_extraction_issues text0
  let dashMs :=
    dashFindAll .em text.toList ++ dashFindAll .hyph text.toList ++
    dashFindAll .sp3 text.toList
  let projects := projectStage1 text.toList dashMs
  let projects := (findSections projSectionPat text).foldl
    (fun pr cap => sectionProcess cap pr) projects
  let projects :=
    if projects.isEmpty then extract_projects_from_full_text text else projects
  let projects := if projects.isEmpty then pdfFallback text else projects
  cleanupProjects projects []

/-! ### Theorems for claims C9 and C5 -/

set_option maxRecDepth 40000 in
/-- Claim C9, counterexample: swapping the separator of the same
project-line content between the canonical em-dash and a hyphen changes
the extracted project name when the description itself contains a
hyphen — the hyphen pattern's greedy name capture extends to the last
hyphen in reach. -/
theorem C9_counterexample :
    (extract_projects "Questfi â€” A platform with e-commerce").map Prod.fst =
      ["Questfi"] ∧
    (extract_projects "Questfi - A platform with e-commerce").map Prod.fst =
      ["Questfi - A platform with e"] ∧
    ("Questfi" : String) ≠ "Questfi - A platform with e" := by
  refine ⟨by decide, by decide, by decide⟩

set_option maxRecDepth 40000 in
/-- Claim C9, amended: dash-variant invariance holds for project-line
content containing no hyphen besides the separator; for the tri-pattern
scenario line all three variants (em-dash, hyphen, 3-space run) extract
exactly the single project name `"Questfi"`. -/
theorem C9_dash_variants_concrete :
    (extract_projects
        "Questfi â€” Blockchain bounty platform on U2U Network for task creation and payments").map
        Prod.fst = ["Questfi"] ∧
    (extract_projects
        "Questfi - Blockchain bounty platform on U2U Network for task creation and payments").map
        Prod.fst = ["Questfi"] ∧
    (extract_projects
        "Questfi   Blockchain bounty platform on U2U Network for task creation and payments").map
        Prod.fst = ["Questfi"] := by
  refine ⟨by decide, by decide, by decide⟩

theorem dedupCIGo_spec (l : List String) : ∀ seen : List String,
    (dedupCIGo l seen).Pairwise (fun a b => pyLower a ≠ pyLower b) ∧
    (∀ s ∈ dedupCIGo l seen, pyLower s ∉ seen) ∧
    (dedupCIGo l seen).Sublist l ∧
    (∀ s ∈ l, pyLower s ∈ (dedupCIGo l seen).map pyLower ∨ pyLower s ∈ seen) := by
  induction l with
  | nil => intro seen; simp [dedupCIGo]
  | cons s t ih =>
    intro seen
    by_cases h : pyLower s ∈ seen
    · simp only [dedupCIGo, if_pos h]
      refine ⟨(ih seen).1, (ih seen).2.1, (ih seen).2.2.1.cons _, ?_⟩
      intro x hx
      rcases List.mem_cons.mp hx with rfl | hx'
      · exact Or.inr h
      · exact (ih seen).2.2.2 x hx'
    · simp only [dedupCIGo, if_neg h]
      have ih' := ih (pyLower s :: seen)
      refine ⟨?_, ?_, ih'.2.2.1.cons₂ _, ?_⟩
      · rw [List.pairwise_cons]
        refine ⟨fun b hb => ?_, ih'.1⟩
        have := ih'.2.1 b hb
        intro heq
        exact this (heq ▸ List.mem_cons_self _ _)
      · intro x hx
        rcases List.mem_cons.mp hx with rfl | hx'
        · exact h
        · exact fun hmem => ih'.2.1 x hx' (List.mem_cons_of_mem _ hmem)
      · intro x hx
        rcases List.mem_cons.mp hx with rfl | hx'
        · exact Or.inl (by simp)
        · rcases ih'.2.2.2 x hx' with hm | hm
          · exact Or.inl (by simp only [List.map_cons, List.mem_cons]; exact Or.inr hm)
          · rcases List.mem_cons.mp hm with heq | hseen
            · exact Or.inl (by simp [heq])
            · exact Or.inr hseen

theorem cleanupProjects_spec (ps : List (String × String)) :
    ∀ seen : List String,
    ((cleanupProjects ps seen).map Prod.fst).Pairwise
      (fun a b => pyLower a ≠ pyLower b) ∧
    (∀ s ∈ (cleanupProjects ps seen).map Prod.fst, pyLower s ∉ seen) := by
  induction ps with
  | nil => intro seen; simp [cleanupProjects]
  | cons p rest ih =>
    intro seen
    simp only [cleanupProjects]
    split
    case isTrue hcond =>
      set name := pyStrip (removeBrackets (String.mk
        (((String.mk ((pyStrip p.1).toList.dropWhile bulletCleanChar)).toList.reverse.dropWhile
          fun c => c = ':' || pyIsSpace c).reverse))) with hname
      have ih' := ih (pyLower name :: seen)
      have hnotseen : pyLower name ∉ seen := hcond.2.1
      refine ⟨?_, ?_⟩
      · rw [List.map_cons, List.pairwise_cons]
        refine ⟨fun b hb => ?_, ih'.1⟩
        have := ih'.2 b hb
        intro heq
        exact this (heq ▸ List.mem_cons_self _ _)
      · intro x hx
        rcases List.mem_cons.mp hx with rfl | hx'
        · exact hnotseen
        · exact fun hmem => ih'.2 x hx' (List.mem_cons_of_mem _ hmem)
    case isFalse hcond =>
      exact ih seen

set_option maxRecDepth 40000 in
/-- Claim C5, counterexample: the final extraction result can contain two
case-insensitively equal skill entries.  On this input the skill-section
pass yields the surface form `"time management"` while the achievements
pass adds the title-cased `"Time Management"`, and the merging
`list(set(...))` step deduplicates only by exact equality. -/
theorem C5_counterexample :
    "time management" ∈
      extract_information_skills
        "Skills: time management\nACHIEVEMENTS: met every deadline" ∧
    "Time Management" ∈
      extract_information_skills
        "Skills: time management\nACHIEVEMENTS: met every deadline" ∧
    pyLower "time management" = pyLower "Time Management" ∧
    ("time management" : String) ≠ "Time Management" := by
  refine ⟨by decide, by decide, by decide, by decide⟩

/-- Claim C5, amended: `extract_skills` itself never returns two
case-insensitively equal entries and its final deduplication is
order-preserving with the first occurrence of each case-insensitive key
winning (a sublist of the pre-deduplication list covering every key);
the cleaned project list likewise carries no case-insensitively duplicate
names.  (The skills list of the full extraction result, after merging
achievement-derived skills through `list(set(...))`, is deduplicated only
by exact equality — see the counterexample.) -/
theorem C5_no_ci_duplicates (text : String) :
    (extract_skills text).Pairwise (fun a b => pyLower a ≠ pyLower b) ∧
    (extract_skills text).Sublist (rawFoundSkills text) ∧
    (∀ s ∈ rawFoundSkills text,
      pyLower s ∈ (extract_skills text).map pyLower) ∧
    ((extract_projects text).map Prod.fst).Pairwise
      (fun a b => pyLower a ≠ pyLower b) := by
  have hs := dedupCIGo_spec (rawFoundSkills text) []
  refine ⟨hs.1, hs.2.2.1, fun s hsm => ?_, ?_⟩
  · rcases hs.2.2.2 s hsm with h | h
    · exact h
    · cases h
  · exact (cleanupProjects_spec _ []).1

end ProfileAuditor
